import Mathlib

/-!
Verification development for the organizer backend (multi-tenant sports-league
administration). The definitions below are a shallow embedding of the
TypeScript source:

- slug derivation and the collision probe loop of createLeague / createFacility
  (apps/api/routers/organization.ts),
- the operating-schedule grouping (getFacilityScheduleGroups) and the
  schedule form-state round trip (operating-schedule-form.tsx,
  lib/league-schedule.ts),
- the relational state and the mutating router operations on teams, rosters,
  team memberships and league participation (apps/api/routers/organization.ts),
  with the uniqueness constraints declared in db/schema enforced at insert
  time, the store being the authority for uniqueness.

JavaScript strings are represented as lists of characters
so that trim, toLowerCase and the regex replacements of the source can be
modelled exactly. Timestamp columns (createdAt / updatedAt) are omitted from
row types: no proved property mentions them.
-/

namespace Organizer

/-- Character-list representation of a JavaScript string. -/
abbrev Str := List Char

/-- Whitespace test used by the embedding of String.prototype.trim
(the source only ever trims over ASCII whitespace). -/
def isJsSpace (c : Char) : Bool :=
  c = ' ' || c = '\t' || c = '\n' || c = '\r'

/-- Embedding of String.prototype.trim: drop whitespace at both ends. -/
def jsTrim (s : Str) : Str :=
  ((s.dropWhile isJsSpace).reverse.dropWhile isJsSpace).reverse

/-- Embedding of String.prototype.toLowerCase (ASCII, which is all the
source ever feeds it). -/
def jsToLower (s : Str) : Str := s.map Char.toLower

/-- Decimal digit character for a value below ten. -/
def digitChar (n : Nat) : Char :=
  if n = 0 then '0' else if n = 1 then '1' else if n = 2 then '2'
  else if n = 3 then '3' else if n = 4 then '4' else if n = 5 then '5'
  else if n = 6 then '6' else if n = 7 then '7' else if n = 8 then '8' else '9'

/-- Numeric value of a decimal digit character. -/
def digitVal (c : Char) : Nat := c.toNat - 48

/-- Decimal digits, most significant first, with explicit fuel so that the
definition is structurally recursive; the fuel always suffices since a
number needs no more digits than its own magnitude. -/
def decDigitsAux : Nat → Nat → List Char
  | 0, _ => []
  | _ + 1, 0 => []
  | fuel + 1, n + 1 => decDigitsAux fuel ((n + 1) / 10) ++ [digitChar ((n + 1) % 10)]

/-- Decimal digits of a positive number, most significant first. -/
def decDigits (n : Nat) : List Char := decDigitsAux n n

/-- Embedding of JavaScript number-to-string conversion for natural numbers,
as used by template literals in the slug probe loop. -/
def natToChars (n : Nat) : List Char :=
  if n = 0 then ['0'] else decDigits n

/-- Decimal decoding, a left inverse for natToChars used to prove it
injective. -/
def decodeDigits (l : List Char) : Nat :=
  l.foldl (fun a c => a * 10 + digitVal c) 0

lemma digitVal_digitChar (n : Nat) (h : n < 10) :
    digitVal (digitChar n) = n := by
  interval_cases n <;> rfl

lemma decodeDigits_append_singleton (l : List Char) (c : Char) :
    decodeDigits (l ++ [c]) = decodeDigits l * 10 + digitVal c := by
  simp [decodeDigits, List.foldl_append]

lemma decodeDigits_decDigitsAux (fuel : Nat) :
    ∀ n, n ≤ fuel → decodeDigits (decDigitsAux fuel n) = n := by
  induction fuel with
  | zero =>
    intro n hn
    interval_cases n
    rfl
  | succ f ih =>
    intro n _
    match n with
    | 0 => rfl
    | m + 1 =>
      rw [decDigitsAux, decodeDigits_append_singleton,
        ih ((m + 1) / 10) (by
          have := Nat.div_lt_self (Nat.succ_pos m) (show 1 < 10 by omega)
          omega),
        digitVal_digitChar ((m + 1) % 10) (Nat.mod_lt _ (by omega))]
      omega

lemma decodeDigits_decDigits (n : Nat) : decodeDigits (decDigits n) = n :=
  decodeDigits_decDigitsAux n n le_rfl

lemma decodeDigits_natToChars (n : Nat) : decodeDigits (natToChars n) = n := by
  by_cases h : n = 0
  · subst h; rfl
  · simp only [natToChars, h, if_false]
    exact decodeDigits_decDigits n

lemma natToChars_injective : Function.Injective natToChars := by
  intro a b h
  have := decodeDigits_natToChars a
  rw [h, decodeDigits_natToChars] at this
  omega

lemma decDigits_ne_nil (n : Nat) (h : n ≠ 0) : decDigits n ≠ [] := by
  match n with
  | 0 => exact absurd rfl h
  | m + 1 =>
    show decDigitsAux (m + 1) (m + 1) ≠ []
    rw [decDigitsAux]
    simp

lemma natToChars_ne_nil (n : Nat) : natToChars n ≠ [] := by
  by_cases h : n = 0
  · subst h; simp [natToChars]
  · simp only [natToChars, h, if_false]
    exact decDigits_ne_nil n h

/-! Slug allocator (createLeague lines 928-949, createFacility lines
1898-1921 of apps/api/routers/organization.ts). -/

/-- Characters kept verbatim by the slug regex replacement, the class
of lowercase letters and digits. -/
def isSlugChar (c : Char) : Bool :=
  ('a' ≤ c && c ≤ 'z') || ('0' ≤ c && c ≤ '9')

/-- Single pass of the run-collapsing regex replacement, the flag recording
whether the previous character belonged to a non-alphanumeric run whose
replacement hyphen has already been emitted. -/
def collapseRunsAux : Bool → List Char → List Char
  | _, [] => []
  | inRun, c :: rest =>
    if isSlugChar c then c :: collapseRunsAux false rest
    else if inRun then collapseRunsAux true rest
    else '-' :: collapseRunsAux true rest

/-- Embedding of the regex replacement replacing every maximal run of
characters outside the lowercase-alphanumeric class with a single hyphen. -/
def collapseRuns (l : List Char) : List Char := collapseRunsAux false l

/-- Removal of one leading hyphen, half of the edge-hyphen regex replacement. -/
def stripLeadHyphen : List Char → List Char
  | '-' :: rest => rest
  | l => l

/-- Embedding of the edge-hyphen regex replacement: after run collapsing the
value has at most one leading and one trailing hyphen, each removed here. -/
def stripEdgeHyphens (l : List Char) : List Char :=
  ((stripLeadHyphen l).reverse |> stripLeadHyphen).reverse

/-- Name-derived slug base: trim, lowercase, collapse non-alphanumeric runs
to single hyphens, strip edge hyphens. -/
def slugFromName (name : Str) : Str :=
  stripEdgeHyphens (collapseRuns (jsToLower (jsTrim name)))

/-- Slug base of createLeague, falling back to the word league when the
derived value is empty. -/
def leagueBaseSlug (name : Str) : Str :=
  let d := slugFromName name
  if d = [] then "league".data else d

/-- Slug base of createFacility: a provided slug wins when nonempty after
trimming, then the name-derived value, then the word facility. -/
def facilityBaseSlug (slugInput : Option Str) (name : Str) : Str :=
  let fromInput := (slugInput.map jsTrim).getD []
  if fromInput ≠ [] then fromInput
  else
    let d := slugFromName name
    if d ≠ [] then d else "facility".data

/-- Candidate probed at step k of the collision loop: the bare base at step
zero, then base-1, base-2 and so on. -/
def slugCandidate (base : Str) : Nat → Str
  | 0 => base
  | k + 1 => base ++ '-' :: natToChars (k + 1)

lemma slugCandidate_injective (base : Str) :
    Function.Injective (slugCandidate base) := by
  intro a b h
  match a, b with
  | 0, 0 => rfl
  | 0, k + 1 =>
    exfalso
    have hlen := congrArg List.length h
    simp [slugCandidate] at hlen
  | j + 1, 0 =>
    exfalso
    have hlen := congrArg List.length h
    simp [slugCandidate] at hlen
  | j + 1, k + 1 =>
    simp only [slugCandidate, List.append_cancel_left_eq, List.cons.injEq,
      true_and] at h
    exact congrArg (· + 1) (by
      have := natToChars_injective h
      omega)

lemma exists_free_slug (existing : List Str) (base : Str) :
    ∃ k, slugCandidate base k ∉ existing := by
  by_contra hall
  push_neg at hall
  have hsub : Set.range (slugCandidate base) ⊆ { s | s ∈ existing } :=
    fun s hs => by
      obtain ⟨k, hk⟩ := hs
      exact hk ▸ hall k
  exact Set.infinite_range_of_injective (slugCandidate_injective base)
    (existing.finite_toSet.subset hsub)

/-- Embedding of the probe loop: starting from the base, increment the
suffix until a candidate is absent from the scoped set of existing slugs,
and return the first free candidate. -/
def allocateSlug (existing : List Str) (base : Str) : Str :=
  slugCandidate base (Nat.find (exists_free_slug existing base))

/-! Operating schedule model (lib/league-schedule.ts, the facility schedule
grouping helper, and operating-schedule-form.tsx). -/

/-- The seven weekday keys of an operating schedule. -/
inductive Day
  | monday | tuesday | wednesday | thursday | friday | saturday | sunday
deriving DecidableEq, Repr

/-- Iteration order of the day keys, monday first, as in DAY_KEYS and
LEAGUE_DAY_VALUES. -/
def dayKeys : List Day :=
  [.monday, .tuesday, .wednesday, .thursday, .friday, .saturday, .sunday]

/-- Three-letter chip label of a day (DAY_LABELS). -/
def getLeagueDayLabel : Day → Str
  | .monday => "Mon".data
  | .tuesday => "Tue".data
  | .wednesday => "Wed".data
  | .thursday => "Thu".data
  | .friday => "Fri".data
  | .saturday => "Sat".data
  | .sunday => "Sun".data

/-- Position of a day in the iteration order (DAY_KEYS.indexOf). -/
def dayIndex : Day → Nat
  | .monday => 0
  | .tuesday => 1
  | .wednesday => 2
  | .thursday => 3
  | .friday => 4
  | .saturday => 5
  | .sunday => 6

/-- Open hours of a day: startTime and endTime strings. -/
abbrev Hours := Str × Str

/-- An operating schedule maps each day to open hours or to closed. -/
abbrev Schedule := Day → Option Hours

/-- The editable seven-key form state: every day present with a startTime
and endTime string, blank meaning closed. -/
abbrev FormState := Day → Str × Str

/-- Test for a decimal digit character. -/
def isAsciiDigit (c : Char) : Bool := '0' ≤ c && c ≤ '9'

/-- Embedding of JavaScript Number() conversion restricted to the inputs
the time formatter meets: a blank string converts to zero, a digit string
to its value, anything else to NaN, represented as none. -/
def jsNumber (s : Str) : Option Nat :=
  let t := jsTrim s
  if t = [] then some 0
  else if t.all isAsciiDigit then some (decodeDigits t) else none

/-- Left zero padding to two characters (padStart of the minute part). -/
def padTo2 (l : Str) : Str :=
  if l.length < 2 then List.replicate (2 - l.length) '0' ++ l else l

/-- Embedding of formatTimeTo12h of lib/league-schedule.ts: parse an HH:mm
string and render it in 12-hour form, returning the input unchanged when the
hour does not parse and the empty string for blank input. -/
def formatTimeTo12h (time : Str) : Str :=
  if jsTrim time = [] then []
  else
    let parts := (jsTrim time).splitOn ':'
    match jsNumber (parts.headD []) with
    | none => time
    | some h =>
      let hour := if h % 12 = 0 then 12 else h % 12
      let minute := match parts[1]? with
        | none => 0
        | some ms => (jsNumber ms).getD 0
      let ampm := if h < 12 then "AM".data else "PM".data
      natToChars hour ++ ':' :: (padTo2 (natToChars minute) ++ ' ' :: ampm)

/-- Sentinel map key shared by all closed days. -/
def closedKey : Str := "closed".data

/-- Map key of a day in the grouping pass: startTime and endTime joined by a
pipe for an open day, the closed sentinel otherwise. -/
def scheduleKey : Option Hours → Str
  | some hrs => hrs.1 ++ '|' :: hrs.2
  | none => closedKey

/-- Accumulated state of one map entry of the grouping pass: the days
collected so far and the hours recorded when the entry was created. -/
structure GroupAcc where
  days : List Day
  hours : Option Hours
deriving DecidableEq, Repr

/-- Insertion step of the grouping pass: append the day to the entry with
the same key when one exists, otherwise append a fresh entry at the end,
matching the insertion-order semantics of a JavaScript Map. -/
def insertDay (key : Str) (d : Day) (hrs : Option Hours) :
    List (Str × GroupAcc) → List (Str × GroupAcc)
  | [] => [(key, ⟨[d], hrs⟩)]
  | (k, g) :: rest =>
    if k = key then (k, ⟨g.days ++ [d], g.hours⟩) :: rest
    else (k, g) :: insertDay key d hrs rest

/-- Hours stored when a map entry is created: nothing for the closed
sentinel, the day's own hours otherwise. -/
def storedHours (s : Schedule) (d : Day) : Option Hours :=
  if scheduleKey (s d) = closedKey then none else s d

/-- First phase of getFacilityScheduleGroups: iterate the days in order and
group them by key into an insertion-ordered map. -/
def buildGroups (s : Schedule) : List (Str × GroupAcc) :=
  dayKeys.foldl (fun m d => insertDay (scheduleKey (s d)) d (storedHours s d) m) []

/-- A display group: day chip labels and a rendered time range. -/
structure ScheduleGroup where
  dayLabels : List Str
  timeRange : Str
deriving DecidableEq, Repr

/-- Index used to order groups: the position of the first collected day,
with the JavaScript indexOf value for an impossible empty group. -/
def firstDayIndex : List Day → Int
  | [] => -1
  | d :: _ => dayIndex d

/-- Rendered time range of a map entry. -/
def renderTimeRange (key : Str) (hrs : Option Hours) : Str :=
  if key = closedKey then "Closed".data
  else
    formatTimeTo12h ((hrs.map Prod.fst).getD []) ++ " – ".data ++
      formatTimeTo12h ((hrs.map Prod.snd).getD [])

/-- Insertion step of the ascending stable sort on the first-day index. -/
def insertByIdx (x : Int × ScheduleGroup) :
    List (Int × ScheduleGroup) → List (Int × ScheduleGroup)
  | [] => [x]
  | y :: rest => if x.1 ≤ y.1 then x :: y :: rest else y :: insertByIdx x rest

/-- Stable ascending sort on the first-day index, the embedding of the
numeric comparator sort; the indexes produced by the grouping pass are
pairwise distinct, so stability details cannot be observed. -/
def sortByIdx : List (Int × ScheduleGroup) → List (Int × ScheduleGroup)
  | [] => []
  | x :: rest => insertByIdx x (sortByIdx rest)

/-- Embedding of getFacilityScheduleGroups: group the days by identical
time-range key, render labels and time ranges, and order groups by the
index of the first day of each group. -/
def getFacilityScheduleGroups (s : Schedule) : List ScheduleGroup :=
  (sortByIdx ((buildGroups s).map fun e =>
    (firstDayIndex e.2.days,
     ScheduleGroup.mk (e.2.days.map getLeagueDayLabel)
       (renderTimeRange e.1 e.2.hours)))).map Prod.snd

/-- Embedding of formStateFromSchedule: every day present, open hours copied
and closed days rendered as blank start and end times. -/
def formStateFromSchedule (s : Schedule) : FormState := fun day =>
  match s day with
  | some hrs => hrs
  | none => ([], [])

/-- Embedding of scheduleFromFormState: a day is open when both fields are
nonblank after trimming, and the trimmed strings are stored. -/
def scheduleFromFormState (f : FormState) : Schedule := fun day =>
  if jsTrim (f day).1 ≠ [] ∧ jsTrim (f day).2 ≠ [] then
    some (jsTrim (f day).1, jsTrim (f day).2)
  else none

/-- The round trip of a schedule through the editable form state. -/
def roundTripSchedule (s : Schedule) : Schedule :=
  scheduleFromFormState (formStateFromSchedule s)

/-- Embedding of the HH:mm validation regex of the create-league input and
the spec's canonical time format: hour 0-23 with optional leading zero,
minute 00-59. -/
def hhmmValid (s : Str) : Bool :=
  match s with
  | [h1, ':', m1, m2] =>
      isAsciiDigit h1 && (('0' ≤ m1 && m1 ≤ '5') && isAsciiDigit m2)
  | [h1, h2, ':', m1, m2] =>
      ((h1 = '0' || h1 = '1') && isAsciiDigit h2 ||
        h1 = '2' && ('0' ≤ h2 && h2 ≤ '3')) &&
      (('0' ≤ m1 && m1 ≤ '5') && isAsciiDigit m2)
  | _ => false

/-- Characterization of the grouping pass, written the way the amended
grouping claim reads: the group of the first not-yet-grouped day holds that
day together with every later day sharing its key, whether or not
consecutive, the days staying in week order, and groups appear in order of
their first day. -/
def specGroups (s : Schedule) : List Day → List (Str × GroupAcc)
  | [] => []
  | d :: rest =>
    (scheduleKey (s d),
      ⟨d :: rest.filter (fun e => decide (scheduleKey (s e) = scheduleKey (s d))),
        storedHours s d⟩) ::
      specGroups s (rest.filter (fun e => decide (scheduleKey (s e) ≠ scheduleKey (s d))))
termination_by ds => ds.length
decreasing_by
  simp only [List.length_cons]
  exact Nat.lt_succ_of_le (List.filter_sublist _).length_le

lemma specGroups_nil (s : Schedule) : specGroups s [] = [] := by
  simp [specGroups]

lemma specGroups_cons (s : Schedule) (d : Day) (rest : List Day) :
    specGroups s (d :: rest) =
      (scheduleKey (s d),
        GroupAcc.mk
          (d :: rest.filter (fun e => decide (scheduleKey (s e) = scheduleKey (s d))))
          (storedHours s d)) ::
        specGroups s
          (rest.filter (fun e => decide (scheduleKey (s e) ≠ scheduleKey (s d)))) := by
  simp [specGroups]

lemma insertDay_of_not_mem (key : Str) (d : Day) (hrs : Option Hours) :
    ∀ acc : List (Str × GroupAcc), key ∉ acc.map Prod.fst →
      insertDay key d hrs acc = acc ++ [(key, ⟨[d], hrs⟩)] := by
  intro acc
  induction acc with
  | nil => intro _; rfl
  | cons e rest ih =>
    intro h
    obtain ⟨k, g⟩ := e
    simp only [List.map_cons, List.mem_cons] at h
    push_neg at h
    simp only [insertDay, if_neg (Ne.symm h.1)]
    rw [ih h.2]
    simp

/-- Entry update applied by insertDay when the key is already present. -/
def updateEntry (key : Str) (d : Day) (e : Str × GroupAcc) : Str × GroupAcc :=
  if e.1 = key then (e.1, ⟨e.2.days ++ [d], e.2.hours⟩) else e

lemma map_updateEntry_of_not_mem (key : Str) (d : Day) :
    ∀ l : List (Str × GroupAcc), key ∉ l.map Prod.fst →
      l.map (updateEntry key d) = l := by
  intro l h
  have hpt : ∀ a ∈ l, updateEntry key d a = a := by
    intro a ha
    have : a.1 ≠ key := by
      intro he
      exact h (by simp only [List.mem_map]; exact ⟨a, ha, he⟩)
    simp [updateEntry, this]
  calc l.map (updateEntry key d) = l.map (fun a => a) := List.map_congr_left hpt
    _ = l := List.map_id' l

lemma map_fst_map_updateEntry (key : Str) (d : Day) (l : List (Str × GroupAcc)) :
    (l.map (updateEntry key d)).map Prod.fst = l.map Prod.fst := by
  rw [List.map_map]
  apply List.map_congr_left
  intro a _
  by_cases h : a.1 = key <;> simp [updateEntry, h]

lemma insertDay_of_mem (key : Str) (d : Day) (hrs : Option Hours) :
    ∀ acc : List (Str × GroupAcc), (acc.map Prod.fst).Nodup →
      key ∈ acc.map Prod.fst →
      insertDay key d hrs acc = acc.map (updateEntry key d) := by
  intro acc
  induction acc with
  | nil => intro _ h; simp at h
  | cons e rest ih =>
    intro hnd hmem
    obtain ⟨k, g⟩ := e
    simp only [List.map_cons, List.nodup_cons] at hnd
    by_cases hk : k = key
    · subst hk
      simp only [insertDay, if_pos rfl, List.map_cons]
      rw [map_updateEntry_of_not_mem k d rest hnd.1]
      simp [updateEntry]
    · simp only [List.map_cons, List.mem_cons] at hmem
      rcases hmem with hmem | hmem
      · exact absurd hmem.symm hk
      · simp only [insertDay, if_neg hk, List.map_cons]
        rw [ih hnd.2 hmem]
        simp [updateEntry, hk]

lemma foldl_insertDay_eq (s : Schedule) :
    ∀ (ds : List Day) (acc : List (Str × GroupAcc)), (acc.map Prod.fst).Nodup →
      List.foldl (fun m d => insertDay (scheduleKey (s d)) d (storedHours s d) m) acc ds =
        acc.map (fun e =>
          (e.1, GroupAcc.mk
            (e.2.days ++ ds.filter (fun d => decide (scheduleKey (s d) = e.1)))
            e.2.hours)) ++
        specGroups s
          (ds.filter (fun d => decide (scheduleKey (s d) ∉ acc.map Prod.fst))) := by
  intro ds
  induction ds with
  | nil =>
    intro acc _
    simp only [List.foldl_nil, List.filter_nil, specGroups_nil, List.append_nil]
    have hid : (fun (e : Str × GroupAcc) =>
        (e.1, GroupAcc.mk e.2.days e.2.hours)) = fun e => e :=
      funext fun e => rfl
    rw [hid, List.map_id']
  | cons d rest ih =>
    intro acc hnd
    simp only [List.foldl_cons]
    by_cases hmem : scheduleKey (s d) ∈ acc.map Prod.fst
    · rw [insertDay_of_mem _ _ _ acc hnd hmem]
      rw [ih (acc.map (updateEntry (scheduleKey (s d)) d))
        (by rw [map_fst_map_updateEntry]; exact hnd)]
      rw [map_fst_map_updateEntry]
      congr 1
      · rw [List.map_map]
        apply List.map_congr_left
        intro e _
        by_cases hk : e.1 = scheduleKey (s d)
        · simp [updateEntry, hk, List.filter_cons, List.append_assoc]
        · have hk2 : ¬(scheduleKey (s d) = e.1) := fun h => hk h.symm
          simp [updateEntry, hk, hk2, List.filter_cons]
      · congr 1
        simp only [List.filter_cons]
        rw [if_neg (by simp [hmem])]
    · have hnd2 : ((acc ++ [(scheduleKey (s d),
          GroupAcc.mk [d] (storedHours s d))]).map Prod.fst).Nodup := by
        simp only [List.map_append, List.map_cons, List.map_nil]
        rw [List.nodup_append]
        refine ⟨hnd, List.nodup_singleton _, ?_⟩
        intro a ha hb
        simp only [List.mem_singleton] at hb
        subst hb
        exact hmem ha
      rw [insertDay_of_not_mem _ _ _ acc hmem]
      rw [ih (acc ++ [(scheduleKey (s d), GroupAcc.mk [d] (storedHours s d))]) hnd2]
      have hkeys : ((acc ++ [(scheduleKey (s d),
          GroupAcc.mk [d] (storedHours s d))]).map Prod.fst) =
          acc.map Prod.fst ++ [scheduleKey (s d)] := by
        simp
      have hfcons : (d :: rest).filter
          (fun x => decide (scheduleKey (s x) ∉ acc.map Prod.fst)) =
          d :: rest.filter (fun x => decide (scheduleKey (s x) ∉ acc.map Prod.fst)) := by
        simp only [List.filter_cons]
        rw [if_pos (by simp [hmem])]
      have ha : (rest.filter
          (fun x => decide (scheduleKey (s x) ∉ acc.map Prod.fst))).filter
            (fun e => decide (scheduleKey (s e) = scheduleKey (s d))) =
          rest.filter (fun x => decide (scheduleKey (s x) = scheduleKey (s d))) := by
        rw [List.filter_filter]
        apply List.filter_congr
        intro x _
        by_cases hx : scheduleKey (s x) = scheduleKey (s d)
        · have hB : scheduleKey (s x) ∉ acc.map Prod.fst := by rw [hx]; exact hmem
          rw [decide_eq_true hx, decide_eq_true hB]
          rfl
        · rw [decide_eq_false hx, Bool.false_and]
      have hb : (rest.filter
          (fun x => decide (scheduleKey (s x) ∉ acc.map Prod.fst))).filter
            (fun e => decide (scheduleKey (s e) ≠ scheduleKey (s d))) =
          rest.filter (fun x => decide (scheduleKey (s x) ∉
            (acc.map Prod.fst ++ [scheduleKey (s d)]))) := by
        rw [List.filter_filter]
        apply List.filter_congr
        intro x _
        by_cases hx : scheduleKey (s x) = scheduleKey (s d)
        · have hin : scheduleKey (s x) ∈ acc.map Prod.fst ++ [scheduleKey (s d)] := by
            rw [hx]
            exact List.mem_append_right _ (List.mem_singleton_self _)
          rw [decide_eq_false (not_not_intro hx), Bool.false_and,
            decide_eq_false (not_not_intro hin)]
        · rw [decide_eq_true hx, Bool.true_and]
          apply decide_eq_decide.mpr
          constructor
          · intro h hin
            rcases List.mem_append.mp hin with h1 | h1
            · exact h h1
            · exact hx (List.mem_singleton.mp h1)
          · intro h hin
            exact h (List.mem_append_left _ hin)
      rw [hkeys, hfcons, specGroups_cons, ha, hb]
      rw [List.map_append]
      rw [List.append_assoc]
      congr 1
      · apply List.map_congr_left
        intro e he
        have hne : ¬(scheduleKey (s d) = e.1) := by
          intro h
          exact hmem (h ▸ List.mem_map_of_mem Prod.fst he)
        simp only [List.filter_cons]
        rw [if_neg (by simp [hne])]

lemma buildGroups_eq_specGroups (s : Schedule) :
    buildGroups s = specGroups s dayKeys := by
  have h := foldl_insertDay_eq s dayKeys [] (by simp)
  simp only [List.map_nil, List.nil_append] at h
  rw [buildGroups, h]
  congr 1

lemma specGroups_first_day (s : Schedule) :
    ∀ (n : Nat) (ds : List Day), ds.length ≤ n →
      ∀ e ∈ specGroups s ds, ∃ d, d ∈ ds ∧ ∃ tl, e.2.days = d :: tl := by
  intro n
  induction n with
  | zero =>
    intro ds hlen e he
    have hds : ds = [] := List.eq_nil_of_length_eq_zero (Nat.le_zero.mp hlen)
    subst hds
    rw [specGroups_nil] at he
    cases he
  | succ n ih =>
    intro ds hlen e he
    match ds with
    | [] =>
      rw [specGroups_nil] at he
      cases he
    | d :: rest =>
      rw [specGroups_cons] at he
      rcases List.mem_cons.mp he with he | he
      · exact ⟨d, List.mem_cons_self d rest, _, by rw [he]⟩
      · have hlen2 : (rest.filter
            (fun e => decide (scheduleKey (s e) ≠ scheduleKey (s d)))).length ≤ n := by
          have h1 := List.length_filter_le
            (fun e => decide (scheduleKey (s e) ≠ scheduleKey (s d))) rest
          simp only [List.length_cons] at hlen
          omega
        obtain ⟨d', hd', tl, htl⟩ := ih _ hlen2 e he
        exact ⟨d', List.mem_cons_of_mem d (List.mem_of_mem_filter hd'), tl, htl⟩

lemma specGroups_sorted (s : Schedule) :
    ∀ (n : Nat) (ds : List Day), ds.length ≤ n →
      ds.Pairwise (fun a b => dayIndex a < dayIndex b) →
      (specGroups s ds).Pairwise
        (fun e1 e2 => firstDayIndex e1.2.days < firstDayIndex e2.2.days) := by
  intro n
  induction n with
  | zero =>
    intro ds hlen _
    have hds : ds = [] := List.eq_nil_of_length_eq_zero (Nat.le_zero.mp hlen)
    subst hds
    rw [specGroups_nil]
    exact List.Pairwise.nil
  | succ n ih =>
    intro ds hlen hpw
    match ds with
    | [] =>
      rw [specGroups_nil]
      exact List.Pairwise.nil
    | d :: rest =>
      rw [specGroups_cons]
      rw [List.pairwise_cons] at hpw
      have hlen2 : (rest.filter
          (fun e => decide (scheduleKey (s e) ≠ scheduleKey (s d)))).length ≤ n := by
        have h1 := List.length_filter_le
          (fun e => decide (scheduleKey (s e) ≠ scheduleKey (s d))) rest
        simp only [List.length_cons] at hlen
        omega
      refine List.Pairwise.cons ?_ (ih _ hlen2
        (List.Pairwise.sublist (List.filter_sublist rest) hpw.2))
      intro e he
      obtain ⟨d', hd', tl, htl⟩ := specGroups_first_day s n _ hlen2 e he
      rw [htl]
      show firstDayIndex (d :: _) < firstDayIndex (d' :: tl)
      show (dayIndex d : Int) < (dayIndex d' : Int)
      exact_mod_cast hpw.1 d' (List.mem_of_mem_filter hd')

lemma insertByIdx_of_le (x : Int × ScheduleGroup) (l : List (Int × ScheduleGroup))
    (h : ∀ y ∈ l, x.1 ≤ y.1) : insertByIdx x l = x :: l := by
  cases l with
  | nil => rfl
  | cons y rest =>
    simp only [insertByIdx, if_pos (h y (List.mem_cons_self y rest))]

lemma sortByIdx_of_sorted :
    ∀ l : List (Int × ScheduleGroup), l.Pairwise (fun a b => a.1 < b.1) →
      sortByIdx l = l := by
  intro l
  induction l with
  | nil => intro _; rfl
  | cons x rest ih =>
    intro hpw
    rw [List.pairwise_cons] at hpw
    simp only [sortByIdx]
    rw [ih hpw.2]
    exact insertByIdx_of_le x rest (fun y hy => le_of_lt (hpw.1 y hy))

/-- Rendering of one characterized group entry into the display form. -/
def renderGroup (e : Str × GroupAcc) : ScheduleGroup :=
  ScheduleGroup.mk (e.2.days.map getLeagueDayLabel) (renderTimeRange e.1 e.2.hours)

lemma getFacilityScheduleGroups_eq_spec (s : Schedule) :
    getFacilityScheduleGroups s = (specGroups s dayKeys).map renderGroup := by
  unfold getFacilityScheduleGroups
  rw [buildGroups_eq_specGroups]
  have hsorted : (specGroups s dayKeys).Pairwise
      (fun e1 e2 => firstDayIndex e1.2.days < firstDayIndex e2.2.days) :=
    specGroups_sorted s 7 dayKeys (by simp [dayKeys]) (by decide)
  have hpw : ((specGroups s dayKeys).map fun e =>
      (firstDayIndex e.2.days,
        ScheduleGroup.mk (e.2.days.map getLeagueDayLabel)
          (renderTimeRange e.1 e.2.hours))).Pairwise (fun a b => a.1 < b.1) :=
    List.pairwise_map.mpr hsorted
  rw [sortByIdx_of_sorted _ hpw, List.map_map]
  rfl

lemma isJsSpace_eq_false_of_digit (c : Char) (h : isAsciiDigit c = true) :
    isJsSpace c = false := by
  by_contra hs
  rw [Bool.not_eq_false] at hs
  simp only [isJsSpace, Bool.or_eq_true, decide_eq_true_eq] at hs
  rcases hs with ((rfl | rfl) | rfl) | rfl <;> exact absurd h (by decide)

lemma jsTrim_eq_self_of_hhmmValid (t : Str) (h : hhmmValid t = true) :
    jsTrim t = t := by
  unfold hhmmValid at h
  split at h
  · rename_i h1 m1 m2
    simp only [Bool.and_eq_true] at h
    have f1 : isJsSpace h1 = false := isJsSpace_eq_false_of_digit h1 h.1
    have f2 : isJsSpace m2 = false := isJsSpace_eq_false_of_digit m2 h.2.2
    simp [jsTrim, List.dropWhile_cons, f1, f2]
  · rename_i h1 h2 m1 m2
    simp only [Bool.and_eq_true, Bool.or_eq_true, decide_eq_true_eq] at h
    have f1 : isJsSpace h1 = false := by
      rcases h.1 with ⟨hh, _⟩ | ⟨hh, _⟩
      · rcases hh with rfl | rfl <;> decide
      · subst hh; decide
    have f2 : isJsSpace m2 = false := isJsSpace_eq_false_of_digit m2 h.2.2
    simp [jsTrim, List.dropWhile_cons, f1, f2]
  · exact absurd h (by decide)

lemma hhmmValid_ne_nil (t : Str) (h : hhmmValid t = true) : t ≠ [] := by
  intro he
  subst he
  exact absurd h (by decide)

lemma roundTripSchedule_eq (s : Schedule)
    (hvalid : ∀ d p, s d = some p → hhmmValid p.1 = true ∧ hhmmValid p.2 = true) :
    roundTripSchedule s = s := by
  funext d
  show scheduleFromFormState (formStateFromSchedule s) d = s d
  cases hd : s d with
  | none =>
    simp [scheduleFromFormState, formStateFromSchedule, hd, jsTrim]
  | some p =>
    obtain ⟨hv1, hv2⟩ := hvalid d p hd
    have t1 := jsTrim_eq_self_of_hhmmValid p.1 hv1
    have t2 := jsTrim_eq_self_of_hhmmValid p.2 hv2
    have n1 := hhmmValid_ne_nil p.1 hv1
    have n2 := hhmmValid_ne_nil p.2 hv2
    simp [scheduleFromFormState, formStateFromSchedule, hd, t1, t2, n1, n2]

/-! Relational state and the mutating handlers of
apps/api/routers/organization.ts. Rows carry the columns the handlers and
the proved properties read; primary keys and the uniqueness constraints
declared in db/schema are enforced by the insert primitives, the store being
the authority for uniqueness per the concurrency model. -/

structure UserRow where
  id : Str
  name : Str
  email : Str
deriving DecidableEq, Repr

/-- Organization membership row (organization_member), the basis of the
authorization check every handler runs first. -/
structure MemberRow where
  id : Str
  userId : Str
  organizationId : Str
deriving DecidableEq, Repr

inductive PlayerStatus
  | active | inactive | banned | suspended | injured
deriving DecidableEq, Repr

inductive TeamStatus
  | active | inactive | banned | suspended
deriving DecidableEq, Repr

/-- Team member role enumeration of db/schema/team_member_role.ts. -/
inductive TeamRole
  | admin | member
deriving DecidableEq, Repr

structure TeamRow where
  id : Str
  name : Str
  slug : Str
  organizationId : Str
  status : TeamStatus
deriving DecidableEq, Repr

structure TeamMemberRow where
  id : Str
  teamId : Str
  userId : Str
  role : TeamRole
deriving DecidableEq, Repr

/-- Roster row (organization_player). -/
structure OrganizationPlayerRow where
  id : Str
  organizationId : Str
  userId : Str
  status : PlayerStatus
deriving DecidableEq, Repr

structure LeagueRow where
  id : Str
  organizationId : Str
  name : Str
  slug : Str
deriving DecidableEq, Repr

/-- Junction row (league_team). -/
structure LeagueTeamRow where
  id : Str
  leagueId : Str
  teamId : Str
deriving DecidableEq, Repr

structure Db where
  users : List UserRow
  members : List MemberRow
  teams : List TeamRow
  teamMembers : List TeamMemberRow
  organizationPlayers : List OrganizationPlayerRow
  leagues : List LeagueRow
  leagueTeams : List LeagueTeamRow
deriving DecidableEq, Repr

/-- Transport-level error categories of the handlers. -/
inductive ErrCode
  | forbidden | notFound | conflict | internal | badRequest
deriving DecidableEq, Repr

/-- Outcome of a handler: a typed result or error, with the state after. -/
abbrev OpResult (α : Type) := Except ErrCode α × Db

def findMember (db : Db) (uid orgId : Str) : Option MemberRow :=
  db.members.find? fun m => decide (m.userId = uid ∧ m.organizationId = orgId)

def findTeamInOrg (db : Db) (teamId orgId : Str) : Option TeamRow :=
  db.teams.find? fun t => decide (t.id = teamId ∧ t.organizationId = orgId)

def findLeagueInOrg (db : Db) (leagueId orgId : Str) : Option LeagueRow :=
  db.leagues.find? fun l => decide (l.id = leagueId ∧ l.organizationId = orgId)

def findRosterRow (db : Db) (orgId userId : Str) : Option OrganizationPlayerRow :=
  db.organizationPlayers.find? fun p =>
    decide (p.organizationId = orgId ∧ p.userId = userId)

def findRosterById (db : Db) (playerId orgId : Str) : Option OrganizationPlayerRow :=
  db.organizationPlayers.find? fun p =>
    decide (p.id = playerId ∧ p.organizationId = orgId)

/-- The exclusivity pre-check of addPlayer and addPlayerToTeam: any
membership of the user, on any team of any organization. -/
def findMembershipOfUser (db : Db) (userId : Str) : Option TeamMemberRow :=
  db.teamMembers.find? fun tm => decide (tm.userId = userId)

def findUserByEmail (db : Db) (email : Str) : Option UserRow :=
  db.users.find? fun u => decide (u.email = email)

def findLeagueTeamPair (db : Db) (leagueId teamId : Str) : Option LeagueTeamRow :=
  db.leagueTeams.find? fun x => decide (x.leagueId = leagueId ∧ x.teamId = teamId)

/-- Constraint check of a team_member insert: the primary key and the
single-column uniqueness constraints on teamId and userId declared in
db/schema/team.ts, which subsume the composite (teamId, userId) unique. -/
def teamMemberInsertOk (db : Db) (r : TeamMemberRow) : Bool :=
  db.teamMembers.all fun x =>
    decide (x.id ≠ r.id ∧ x.teamId ≠ r.teamId ∧ x.userId ≠ r.userId)

/-- Insert into team_member: a constraint violation yields no row and
leaves the table unchanged, which the handlers surface as Internal. -/
def insertTeamMember (db : Db) (r : TeamMemberRow) : Option TeamMemberRow × Db :=
  if teamMemberInsertOk db r then
    (some r, { db with teamMembers := db.teamMembers ++ [r] })
  else (none, db)

/-- Constraint check of a league_team insert: primary key and the composite
(leagueId, teamId) unique of db/schema/league_team.ts. -/
def leagueTeamInsertOk (db : Db) (r : LeagueTeamRow) : Bool :=
  db.leagueTeams.all fun x =>
    decide (x.id ≠ r.id ∧ ¬(x.leagueId = r.leagueId ∧ x.teamId = r.teamId))

def insertLeagueTeam (db : Db) (r : LeagueTeamRow) : Option LeagueTeamRow × Db :=
  if leagueTeamInsertOk db r then
    (some r, { db with leagueTeams := db.leagueTeams ++ [r] })
  else (none, db)

/-- Constraint check of a team insert: primary key and the global slug
unique of db/schema/team.ts. -/
def teamInsertOk (db : Db) (r : TeamRow) : Bool :=
  db.teams.all fun x => decide (x.id ≠ r.id ∧ x.slug ≠ r.slug)

def insertTeam (db : Db) (r : TeamRow) : Option TeamRow × Db :=
  if teamInsertOk db r then
    (some r, { db with teams := db.teams ++ [r] })
  else (none, db)

/-- Upsert into organization_player with onConflictDoNothing on the
(organizationId, userId) unique; the generated id is assumed fresh. -/
def upsertRosterDoNothing (db : Db) (r : OrganizationPlayerRow) : Db :=
  if (findRosterRow db r.organizationId r.userId).isSome then db
  else { db with organizationPlayers := db.organizationPlayers ++ [r] }

/-- Upsert into organization_player with onConflictDoUpdate on the
(organizationId, userId) unique, setting the status on conflict. -/
def upsertRosterDoUpdate (db : Db) (r : OrganizationPlayerRow) : Db :=
  if (findRosterRow db r.organizationId r.userId).isSome then
    { db with organizationPlayers := db.organizationPlayers.map fun p =>
        if p.organizationId = r.organizationId ∧ p.userId = r.userId then
          { p with status := r.status } else p }
  else { db with organizationPlayers := db.organizationPlayers ++ [r] }

/-- Embedding of the addPlayerToTeam handler: authorization, team ownership,
roster presence, the global exclusivity pre-check, then the insert with
role member. -/
def addPlayerToTeam (db : Db) (ctxUserId organizationId teamId userId newId : Str) :
    OpResult TeamMemberRow :=
  match findMember db ctxUserId organizationId with
  | none => (.error .forbidden, db)
  | some _ =>
    match findTeamInOrg db teamId organizationId with
    | none => (.error .notFound, db)
    | some _ =>
      match findRosterRow db organizationId userId with
      | none => (.error .notFound, db)
      | some _ =>
        match findMembershipOfUser db userId with
        | some _ => (.error .conflict, db)
        | none =>
          match insertTeamMember db ⟨newId, teamId, userId, .member⟩ with
          | (some created, db1) => (.ok created, db1)
          | (none, db1) => (.error .internal, db1)

/-- Embedding of the addPlayer handler: resolve the user by lowercased and
trimmed email, run the same exclusivity pre-check, upsert the roster row,
then insert the membership with role member. -/
def addPlayer (db : Db) (ctxUserId organizationId teamId email : Str)
    (status : PlayerStatus) (newOpId newId : Str) : OpResult TeamMemberRow :=
  match findMember db ctxUserId organizationId with
  | none => (.error .forbidden, db)
  | some _ =>
    match findTeamInOrg db teamId organizationId with
    | none => (.error .notFound, db)
    | some _ =>
      match findUserByEmail db (jsTrim (jsToLower email)) with
      | none => (.error .notFound, db)
      | some u =>
        match findMembershipOfUser db u.id with
        | some _ => (.error .conflict, db)
        | none =>
          let db1 := upsertRosterDoUpdate db ⟨newOpId, organizationId, u.id, status⟩
          match insertTeamMember db1 ⟨newId, teamId, u.id, .member⟩ with
          | (some created, db2) => (.ok created, db2)
          | (none, db2) => (.error .internal, db2)

/-- Embedding of the removePlayerFromTeam handler: when the removed
membership has role admin and another membership of the team remains, the
first such row is promoted to admin before the removal is performed. -/
def removePlayerFromTeam (db : Db) (ctxUserId organizationId teamId userId : Str) :
    OpResult Unit :=
  match findMember db ctxUserId organizationId with
  | none => (.error .forbidden, db)
  | some _ =>
    match db.teamMembers.find?
        (fun tm => decide (tm.teamId = teamId ∧ tm.userId = userId)) with
    | none => (.error .notFound, db)
    | some current =>
      let db1 :=
        if current.role = .admin then
          match db.teamMembers.find?
              (fun tm => decide (tm.teamId = teamId ∧ tm.userId ≠ userId)) with
          | some nextAdmin =>
            { db with teamMembers := db.teamMembers.map fun x =>
                if x.id = nextAdmin.id then { x with role := .admin } else x }
          | none => db
        else db
      (.ok (),
        { db1 with teamMembers := db1.teamMembers.filter fun tm =>
            !decide (tm.teamId = teamId ∧ tm.userId = userId) })

def orgTeamIds (db : Db) (organizationId : Str) : List Str :=
  (db.teams.filter fun t => decide (t.organizationId = organizationId)).map TeamRow.id

/-- Membership-deletion step of removePlayer: when the organization owns any
team, delete every membership the user holds on one of them. -/
def deleteOrgMemberships (db : Db) (organizationId userId : Str) : Db :=
  if orgTeamIds db organizationId ≠ [] then
    { db with teamMembers := db.teamMembers.filter fun tm =>
        !decide (tm.userId = userId ∧ tm.teamId ∈ orgTeamIds db organizationId) }
  else db

/-- Embedding of the removePlayer handler with an explicit environment step
at the await point between the membership deletions and the roster-entry
deletion; the sequential handler is removePlayer below, the same procedure
with the identity environment. -/
def removePlayerWith (env : Db → Db) (db : Db)
    (ctxUserId organizationId playerId : Str) : OpResult Unit :=
  match findMember db ctxUserId organizationId with
  | none => (.error .forbidden, db)
  | some _ =>
    match findRosterById db playerId organizationId with
    | none => (.error .notFound, db)
    | some op =>
      let db1 := deleteOrgMemberships db organizationId op.userId
      let db2 := env db1
      let deleted := db2.organizationPlayers.filter fun p => decide (p.id = playerId)
      let db3 := { db2 with organizationPlayers :=
        db2.organizationPlayers.filter fun p => !decide (p.id = playerId) }
      if deleted = [] then (.error .internal, db3) else (.ok (), db3)

/-- Embedding of the removePlayer handler: delete the roster row and, first,
every membership of the same user on the organization's teams. -/
def removePlayer (db : Db) (ctxUserId organizationId playerId : Str) :
    OpResult Unit :=
  removePlayerWith id db ctxUserId organizationId playerId

/-- Embedding of the updatePlayer handler: a pure status update of the
roster row. -/
def updatePlayer (db : Db) (ctxUserId organizationId playerId : Str)
    (status : PlayerStatus) : OpResult OrganizationPlayerRow :=
  match findMember db ctxUserId organizationId with
  | none => (.error .forbidden, db)
  | some _ =>
    match findRosterById db playerId organizationId with
    | none => (.error .notFound, db)
    | some _ =>
      let newRows := db.organizationPlayers.map fun p =>
        if p.id = playerId then { p with status := status } else p
      match newRows.find? fun p => decide (p.id = playerId) with
      | some updated => (.ok updated, { db with organizationPlayers := newRows })
      | none => (.error .internal, { db with organizationPlayers := newRows })

/-- Embedding of the createTeam handler: insert the team, upsert the roster
row of the designated admin with onConflictDoNothing, then insert the admin
membership; the identifiers and the generated slug arrive as parameters
standing for the store defaults. -/
def createTeam (db : Db) (ctxUserId organizationId name adminUserId : Str)
    (newTeamId newTeamSlug newOpId newMemberId : Str) : OpResult TeamRow :=
  match findMember db ctxUserId organizationId with
  | none => (.error .forbidden, db)
  | some _ =>
    match insertTeam db ⟨newTeamId, jsTrim name, newTeamSlug, organizationId, .inactive⟩ with
    | (none, db1) => (.error .internal, db1)
    | (some createdTeam, db1) =>
      let db2 := upsertRosterDoNothing db1 ⟨newOpId, organizationId, adminUserId, .inactive⟩
      match insertTeamMember db2 ⟨newMemberId, createdTeam.id, adminUserId, .admin⟩ with
      | (some _, db3) => (.ok createdTeam, db3)
      | (none, db3) => (.error .internal, db3)

/-- Embedding of the addTeamToLeague handler: authorization, league and team
ownership checks raising NotFound, a Conflict on an existing pair, then the
junction insert. -/
def addTeamToLeague (db : Db) (ctxUserId organizationId leagueId teamId newId : Str) :
    OpResult LeagueTeamRow :=
  match findMember db ctxUserId organizationId with
  | none => (.error .forbidden, db)
  | some _ =>
    match findLeagueInOrg db leagueId organizationId with
    | none => (.error .notFound, db)
    | some _ =>
      match findTeamInOrg db teamId organizationId with
      | none => (.error .notFound, db)
      | some _ =>
        match findLeagueTeamPair db leagueId teamId with
        | some _ => (.error .conflict, db)
        | none =>
          match insertLeagueTeam db ⟨newId, leagueId, teamId⟩ with
          | (some created, db1) => (.ok created, db1)
          | (none, db1) => (.error .internal, db1)

/-- Embedding of the removeTeamFromLeague handler. -/
def removeTeamFromLeague (db : Db) (ctxUserId organizationId leagueId teamId : Str) :
    OpResult Unit :=
  match findMember db ctxUserId organizationId with
  | none => (.error .forbidden, db)
  | some _ =>
    match findLeagueInOrg db leagueId organizationId with
    | none => (.error .notFound, db)
    | some _ =>
      let deleted := db.leagueTeams.filter fun x =>
        decide (x.leagueId = leagueId ∧ x.teamId = teamId)
      let db1 := { db with
        leagueTeams := db.leagueTeams.filter fun x =>
          !decide (x.leagueId = leagueId ∧ x.teamId = teamId) }
      if deleted = [] then ((.error .notFound : Except ErrCode Unit), db1)
      else (.ok (), db1)

/-- Embedding of the deleteTeam handler, with the onDelete cascades declared
in the schema: memberships and junction rows of the team go with it. -/
def deleteTeam (db : Db) (ctxUserId organizationId teamId : Str) : OpResult Unit :=
  match findMember db ctxUserId organizationId with
  | none => (.error .forbidden, db)
  | some _ =>
    let deleted := db.teams.filter fun t =>
      decide (t.id = teamId ∧ t.organizationId = organizationId)
    if deleted = [] then (.error .notFound, db)
    else
      (.ok (),
        { db with
          teams := db.teams.filter fun t =>
            !decide (t.id = teamId ∧ t.organizationId = organizationId),
          teamMembers := db.teamMembers.filter fun tm => !decide (tm.teamId = teamId),
          leagueTeams := db.leagueTeams.filter fun x => !decide (x.teamId = teamId) })

/-- Embedding of the deleteLeague handler, cascading its junction rows. -/
def deleteLeague (db : Db) (ctxUserId organizationId leagueId : Str) : OpResult Unit :=
  match findMember db ctxUserId organizationId with
  | none => (.error .forbidden, db)
  | some _ =>
    let deleted := db.leagues.filter fun l =>
      decide (l.id = leagueId ∧ l.organizationId = organizationId)
    if deleted = [] then (.error .notFound, db)
    else
      (.ok (),
        { db with
          leagues := db.leagues.filter fun l =>
            !decide (l.id = leagueId ∧ l.organizationId = organizationId),
          leagueTeams := db.leagueTeams.filter fun x => !decide (x.leagueId = leagueId) })

/-- One row of the listPlayers result. -/
structure PlayerListRow where
  id : Str
  teamId : Option Str
  userId : Str
  status : PlayerStatus
  teamName : Option Str
  teamSlug : Option Str
  userName : Str
  userEmail : Str
deriving DecidableEq, Repr

/-- Leading-match test: the second string starts with the first. -/
def leadMatch : Str → Str → Bool
  | [], _ => true
  | _ :: _, [] => false
  | a :: as, b :: bs => a == b && leadMatch as bs

/-- Containment of the second string in the first at any position. -/
def charsContain (text pat : Str) : Bool :=
  match text with
  | [] => leadMatch pat []
  | c :: rest => leadMatch pat (c :: rest) || charsContain rest pat

/-- Case-insensitive containment, the embedding of the ilike condition with
wildcards on both sides. -/
def ilikeContains (text pat : Str) : Bool :=
  charsContain (jsToLower text) (jsToLower pat)

/-- Left-join expansion: one null row when nothing matches, one row per
match otherwise. -/
def leftJoinRows {α : Type} (hits : List α) : List (Option α) :=
  match hits with
  | [] => [none]
  | ms => ms.map some

/-- Join shape of listPlayers: roster rows inner-joined with users, left
joined with any membership of the user, left joined with the team when that
membership points at a team of the same organization. -/
def listPlayersJoinRows (db : Db) :
    List (OrganizationPlayerRow × UserRow × Option TeamMemberRow × Option TeamRow) :=
  db.organizationPlayers.flatMap fun p =>
    (db.users.filter fun u => decide (u.id = p.userId)).flatMap fun u =>
      (leftJoinRows (db.teamMembers.filter fun tm =>
          decide (tm.userId = p.userId))).flatMap fun tm? =>
        (match tm? with
          | none => ([none] : List (Option TeamRow))
          | some tm => leftJoinRows (db.teams.filter fun t =>
              decide (t.id = tm.teamId ∧ t.organizationId = p.organizationId))).map
          fun team? => (p, u, tm?, team?)

/-- Embedding of the listPlayers handler: the roster listing with optional
team filter and case-insensitive name or email search; a null team
comparison never satisfies the team filter, as in SQL. -/
def listPlayers (db : Db) (ctxUserId organizationId : Str)
    (teamFilter : Option Str) (search : Option Str) : OpResult (List PlayerListRow) :=
  match findMember db ctxUserId organizationId with
  | none => (.error .forbidden, db)
  | some _ =>
    let searchTerm := (search.map jsTrim).getD []
    let rows := (listPlayersJoinRows db).filter fun r =>
      decide (r.1.organizationId = organizationId) &&
      (match teamFilter with
        | none => true
        | some tid =>
          match r.2.2.2 with
          | some t => decide (t.id = tid)
          | none => false) &&
      (if searchTerm = [] then true
       else ilikeContains r.2.1.name searchTerm || ilikeContains r.2.1.email searchTerm)
    (.ok (rows.map fun r =>
      { id := r.1.id
        teamId := (r.2.2.2).map TeamRow.id
        userId := r.1.userId
        status := r.1.status
        teamName := (r.2.2.2).map TeamRow.name
        teamSlug := (r.2.2.2).map TeamRow.slug
        userName := r.2.1.name
        userEmail := r.2.1.email }), db)

/-- The mutating Core operations, identifiers generated by the store
arriving as parameters. -/
inductive CoreOp
  | addPlayerToTeamOp (ctxUserId organizationId teamId userId newId : Str)
  | addPlayerOp (ctxUserId organizationId teamId email : Str)
      (status : PlayerStatus) (newOpId newId : Str)
  | removePlayerFromTeamOp (ctxUserId organizationId teamId userId : Str)
  | removePlayerOp (ctxUserId organizationId playerId : Str)
  | updatePlayerOp (ctxUserId organizationId playerId : Str) (status : PlayerStatus)
  | createTeamOp (ctxUserId organizationId name adminUserId : Str)
      (newTeamId newTeamSlug newOpId newMemberId : Str)
  | addTeamToLeagueOp (ctxUserId organizationId leagueId teamId newId : Str)
  | removeTeamFromLeagueOp (ctxUserId organizationId leagueId teamId : Str)
  | deleteTeamOp (ctxUserId organizationId teamId : Str)
  | deleteLeagueOp (ctxUserId organizationId leagueId : Str)

/-- State reached by one Core operation. -/
def execOp (db : Db) : CoreOp → Db
  | .addPlayerToTeamOp c o t u n => (addPlayerToTeam db c o t u n).2
  | .addPlayerOp c o t e st n1 n2 => (addPlayer db c o t e st n1 n2).2
  | .removePlayerFromTeamOp c o t u => (removePlayerFromTeam db c o t u).2
  | .removePlayerOp c o p => (removePlayer db c o p).2
  | .updatePlayerOp c o p st => (updatePlayer db c o p st).2
  | .createTeamOp c o nm au n1 n2 n3 n4 => (createTeam db c o nm au n1 n2 n3 n4).2
  | .addTeamToLeagueOp c o l t n => (addTeamToLeague db c o l t n).2
  | .removeTeamFromLeagueOp c o l t => (removeTeamFromLeague db c o l t).2
  | .deleteTeamOp c o t => (deleteTeam db c o t).2
  | .deleteLeagueOp c o l => (deleteLeague db c o l).2

/-- Exclusivity invariant: no two membership rows share a user, so every
user holds at most one TeamMembership. -/
def ExclusivityInv (db : Db) : Prop :=
  db.teamMembers.Pairwise fun a b => a.userId ≠ b.userId

instance (db : Db) : Decidable (ExclusivityInv db) :=
  List.instDecidablePairwise db.teamMembers

/-- Membership rows of one user. -/
def membershipsOf (db : Db) (userId : Str) : List TeamMemberRow :=
  db.teamMembers.filter fun tm => decide (tm.userId = userId)

lemma exclusivity_of_eq {db db' : Db} (h : ExclusivityInv db)
    (heq : db'.teamMembers = db.teamMembers) : ExclusivityInv db' := by
  unfold ExclusivityInv
  rw [heq]
  exact h

lemma exclusivity_of_filter {db : Db} (h : ExclusivityInv db)
    (l : List TeamMemberRow) (p : TeamMemberRow → Bool)
    (hl : l = db.teamMembers.filter p) :
    l.Pairwise (fun a b => a.userId ≠ b.userId) := by
  rw [hl]
  exact List.Pairwise.sublist (List.filter_sublist _) h

lemma exclusivity_insertTeamMember (db : Db) (r : TeamMemberRow)
    (h : ExclusivityInv db) : ExclusivityInv (insertTeamMember db r).2 := by
  unfold insertTeamMember
  split
  · rename_i hok
    unfold ExclusivityInv
    show (db.teamMembers ++ [r]).Pairwise _
    rw [List.pairwise_append]
    refine ⟨h, List.pairwise_singleton _ _, ?_⟩
    intro a ha b hb
    simp only [List.mem_singleton] at hb
    subst hb
    unfold teamMemberInsertOk at hok
    rw [List.all_eq_true] at hok
    have hx := hok a ha
    simp only [decide_eq_true_eq] at hx
    exact hx.2.2
  · exact h

lemma exclusivity_promote (db : Db) (nid : Str) (h : ExclusivityInv db) :
    (db.teamMembers.map fun x =>
      if x.id = nid then { x with role := TeamRole.admin } else x).Pairwise
        (fun a b => a.userId ≠ b.userId) := by
  refine List.Pairwise.map _ ?_ h
  intro a b hab
  by_cases h1 : a.id = nid <;> by_cases h2 : b.id = nid <;>
    simp [h1, h2] <;> exact hab

lemma exclusivity_deleteOrgMemberships (db : Db) (o u : Str)
    (h : ExclusivityInv db) : ExclusivityInv (deleteOrgMemberships db o u) := by
  unfold deleteOrgMemberships
  split
  · exact List.Pairwise.sublist (List.filter_sublist _) h
  · exact h

lemma teamMembers_insertTeam (db : Db) (r : TeamRow) :
    (insertTeam db r).2.teamMembers = db.teamMembers := by
  unfold insertTeam
  split <;> rfl

lemma teamMembers_upsertRosterDoNothing (db : Db) (r : OrganizationPlayerRow) :
    (upsertRosterDoNothing db r).teamMembers = db.teamMembers := by
  unfold upsertRosterDoNothing
  split <;> rfl

lemma teamMembers_upsertRosterDoUpdate (db : Db) (r : OrganizationPlayerRow) :
    (upsertRosterDoUpdate db r).teamMembers = db.teamMembers := by
  unfold upsertRosterDoUpdate
  split <;> rfl

lemma exclusivity_addPlayerToTeam (db : Db) (c o t u n : Str)
    (h : ExclusivityInv db) : ExclusivityInv (addPlayerToTeam db c o t u n).2 := by
  unfold addPlayerToTeam
  split
  · exact h
  split
  · exact h
  split
  · exact h
  split
  · exact h
  split
  · rename_i created db1 heq
    have hi := exclusivity_insertTeamMember db ⟨n, t, u, .member⟩ h
    rw [heq] at hi
    exact hi
  · rename_i db1 heq
    have hi := exclusivity_insertTeamMember db ⟨n, t, u, .member⟩ h
    rw [heq] at hi
    exact hi

lemma exclusivity_addPlayer (db : Db) (c o t e : Str) (st : PlayerStatus)
    (n1 n2 : Str) (h : ExclusivityInv db) :
    ExclusivityInv (addPlayer db c o t e st n1 n2).2 := by
  unfold addPlayer
  split
  · exact h
  split
  · exact h
  split
  · exact h
  rename_i u hu
  split
  · exact h
  have h1 : ExclusivityInv (upsertRosterDoUpdate db ⟨n1, o, u.id, st⟩) :=
    exclusivity_of_eq h (teamMembers_upsertRosterDoUpdate db _)
  dsimp only
  split
  · rename_i created db2 heq
    have hi := exclusivity_insertTeamMember _ ⟨n2, t, u.id, .member⟩ h1
    rw [heq] at hi
    exact hi
  · rename_i db2 heq
    have hi := exclusivity_insertTeamMember _ ⟨n2, t, u.id, .member⟩ h1
    rw [heq] at hi
    exact hi

lemma exclusivity_removePlayerFromTeam (db : Db) (c o t u : Str)
    (h : ExclusivityInv db) :
    ExclusivityInv (removePlayerFromTeam db c o t u).2 := by
  unfold removePlayerFromTeam
  split
  · exact h
  split
  · exact h
  rename_i current hcur
  show ExclusivityInv _
  unfold ExclusivityInv
  show List.Pairwise _ (List.filter _ _)
  apply List.Pairwise.sublist (List.filter_sublist _)
  split
  · split
    · exact exclusivity_promote db _ h
    · exact h
  · exact h

lemma exclusivity_removePlayer (db : Db) (c o p : Str) (h : ExclusivityInv db) :
    ExclusivityInv (removePlayer db c o p).2 := by
  unfold removePlayer removePlayerWith
  split
  · exact h
  split
  · exact h
  rename_i op hop
  have h1 := exclusivity_deleteOrgMemberships db o op.userId h
  dsimp only
  split
  · exact h1
  · exact h1

lemma exclusivity_updatePlayer (db : Db) (c o p : Str) (st : PlayerStatus)
    (h : ExclusivityInv db) : ExclusivityInv (updatePlayer db c o p st).2 := by
  unfold updatePlayer
  split
  · exact h
  split
  · exact h
  dsimp only
  split
  · exact h
  · exact h

lemma exclusivity_createTeam (db : Db) (c o nm au n1 n2 n3 n4 : Str)
    (h : ExclusivityInv db) :
    ExclusivityInv (createTeam db c o nm au n1 n2 n3 n4).2 := by
  unfold createTeam
  split
  · exact h
  split
  · rename_i db1 heq
    refine exclusivity_of_eq h ?_
    have := teamMembers_insertTeam db ⟨n1, jsTrim nm, n2, o, .inactive⟩
    rw [heq] at this
    exact this
  · rename_i createdTeam db1 heq
    have h1 : ExclusivityInv db1 := by
      refine exclusivity_of_eq h ?_
      have := teamMembers_insertTeam db ⟨n1, jsTrim nm, n2, o, .inactive⟩
      rw [heq] at this
      exact this
    have h2 : ExclusivityInv (upsertRosterDoNothing db1 ⟨n3, o, au, .inactive⟩) :=
      exclusivity_of_eq h1 (teamMembers_upsertRosterDoNothing db1 _)
    dsimp only
    split
    · rename_i created db3 heq3
      have hi := exclusivity_insertTeamMember _
        ⟨n4, createdTeam.id, au, .admin⟩ h2
      rw [heq3] at hi
      exact hi
    · rename_i db3 heq3
      have hi := exclusivity_insertTeamMember _
        ⟨n4, createdTeam.id, au, .admin⟩ h2
      rw [heq3] at hi
      exact hi

lemma exclusivity_addTeamToLeague (db : Db) (c o l t n : Str)
    (h : ExclusivityInv db) :
    ExclusivityInv (addTeamToLeague db c o l t n).2 := by
  unfold addTeamToLeague
  split
  · exact h
  split
  · exact h
  split
  · exact h
  split
  · exact h
  split
  · rename_i created db1 heq
    refine exclusivity_of_eq h ?_
    have : (insertLeagueTeam db ⟨n, l, t⟩).2.teamMembers = db.teamMembers := by
      unfold insertLeagueTeam
      split <;> rfl
    rw [heq] at this
    exact this
  · rename_i db1 heq
    refine exclusivity_of_eq h ?_
    have : (insertLeagueTeam db ⟨n, l, t⟩).2.teamMembers = db.teamMembers := by
      unfold insertLeagueTeam
      split <;> rfl
    rw [heq] at this
    exact this

lemma exclusivity_removeTeamFromLeague (db : Db) (c o l t : Str)
    (h : ExclusivityInv db) :
    ExclusivityInv (removeTeamFromLeague db c o l t).2 := by
  unfold removeTeamFromLeague
  split
  · exact h
  split
  · exact h
  dsimp only
  split
  · exact h
  · exact h

lemma exclusivity_deleteTeam (db : Db) (c o t : Str) (h : ExclusivityInv db) :
    ExclusivityInv (deleteTeam db c o t).2 := by
  unfold deleteTeam
  split
  · exact h
  dsimp only
  split
  · exact h
  · exact List.Pairwise.sublist (List.filter_sublist _) h

lemma exclusivity_deleteLeague (db : Db) (c o l : Str) (h : ExclusivityInv db) :
    ExclusivityInv (deleteLeague db c o l).2 := by
  unfold deleteLeague
  split
  · exact h
  dsimp only
  split
  · exact h
  · exact h

lemma exclusivity_execOp (db : Db) (op : CoreOp) (h : ExclusivityInv db) :
    ExclusivityInv (execOp db op) := by
  cases op with
  | addPlayerToTeamOp c o t u n => exact exclusivity_addPlayerToTeam db c o t u n h
  | addPlayerOp c o t e st n1 n2 => exact exclusivity_addPlayer db c o t e st n1 n2 h
  | removePlayerFromTeamOp c o t u => exact exclusivity_removePlayerFromTeam db c o t u h
  | removePlayerOp c o p => exact exclusivity_removePlayer db c o p h
  | updatePlayerOp c o p st => exact exclusivity_updatePlayer db c o p st h
  | createTeamOp c o nm au n1 n2 n3 n4 => exact exclusivity_createTeam db c o nm au n1 n2 n3 n4 h
  | addTeamToLeagueOp c o l t n => exact exclusivity_addTeamToLeague db c o l t n h
  | removeTeamFromLeagueOp c o l t => exact exclusivity_removeTeamFromLeague db c o l t h
  | deleteTeamOp c o t => exact exclusivity_deleteTeam db c o t h
  | deleteLeagueOp c o l => exact exclusivity_deleteLeague db c o l h

/-- Junction rows of one (league, team) pair. -/
def pairRows (db : Db) (leagueId teamId : Str) : List LeagueTeamRow :=
  db.leagueTeams.filter fun x => decide (x.leagueId = leagueId ∧ x.teamId = teamId)

/-- Schedule with monday and wednesday open 09:00 to 17:00 and every other
day closed: the two open days share a time key without being consecutive. -/
def mondayWednesdaySchedule : Schedule := fun d =>
  match d with
  | .monday => some ("09:00".data, "17:00".data)
  | .wednesday => some ("09:00".data, "17:00".data)
  | _ => none

/-- Concrete schedule used to instantiate the round-trip law. -/
def c4WitnessSchedule : Schedule := fun d =>
  match d with
  | .monday => some ("09:00".data, "17:00".data)
  | .tuesday => some ("09:00".data, "17:00".data)
  | .saturday => some ("8:30".data, "12:00".data)
  | _ => none

/-! Declared shape of the team_member table of db/schema/team.ts: the
column list and the uniqueness constraints, with the semantics of the
declared single-column uniques on rows. -/

/-- Column names declared on the team_member table. -/
def teamMemberColumnNames : List Str :=
  ["id".data, "teamId".data, "userId".data, "createdAt".data, "updatedAt".data]

/-- Uniqueness constraints declared on the team_member table: the
single-column uniques on teamId and on userId, and the composite
(teamId, userId) unique. The primary key on id is a separate marker in the
schema and is not repeated here. -/
def teamMemberUniqueColumnSets : List (List Str) :=
  [["teamId".data], ["userId".data], ["teamId".data, "userId".data]]

/-- Row of the declared team_member table, carrying the key columns the
constraints range over. -/
structure TeamMemberDeclRow where
  id : Str
  teamId : Str
  userId : Str
deriving DecidableEq, Repr

/-- Satisfaction of a single-column uniqueness constraint. -/
def uniqueOn (f : TeamMemberDeclRow → Str) (rows : List TeamMemberDeclRow) : Prop :=
  rows.Pairwise fun a b => f a ≠ f b

/-- A table state satisfying the single-column uniques declared on
team_member. -/
def teamMemberDeclConstraintsHold (rows : List TeamMemberDeclRow) : Prop :=
  uniqueOn (fun r => r.teamId) rows ∧ uniqueOn (fun r => r.userId) rows

instance (f : TeamMemberDeclRow → Str) (rows : List TeamMemberDeclRow) :
    Decidable (uniqueOn f rows) :=
  List.instDecidablePairwise rows

instance (rows : List TeamMemberDeclRow) :
    Decidable (teamMemberDeclConstraintsHold rows) :=
  instDecidableAnd

lemma membershipsOf_length_le_one (db : Db) (u : Str) (h : ExclusivityInv db) :
    (membershipsOf db u).length ≤ 1 := by
  have hpw : (membershipsOf db u).Pairwise (fun a b => a.userId ≠ b.userId) :=
    List.Pairwise.sublist (List.filter_sublist _) h
  have hall : ∀ x ∈ membershipsOf db u, x.userId = u := by
    intro x hx
    have := List.of_mem_filter hx
    simpa using this
  match hml : membershipsOf db u with
  | [] => simp
  | [x] => simp
  | a :: b :: rest =>
    rw [hml] at hpw hall
    exact absurd
      ((hall a (List.mem_cons_self a _)).trans
        (hall b (List.mem_cons_of_mem a (List.mem_cons_self b rest))).symm)
      ((List.pairwise_cons.mp hpw).1 b (List.mem_cons_self b rest))

lemma find?_isSome_of_mem {α : Type} {l : List α} {p : α → Bool} {x : α}
    (hx : x ∈ l) (hp : p x = true) : ∃ y, l.find? p = some y := by
  have := List.find?_isSome.mpr ⟨x, hx, hp⟩
  exact Option.isSome_iff_exists.mp this

/-- Claim C1: every Core operation preserves the at-most-one-membership-per-user
invariant, the declared store uniqueness being the authority for the
unchecked insert paths; in particular addPlayerToTeam for a user who
already holds any membership, called by an organization member on an owned
team for a rostered user, fails with Conflict, leaves the state unchanged,
and the user keeps exactly one membership row. -/
theorem C1_membership_exclusivity (db : Db) (op : CoreOp) (c o t u n : Str)
    (hinv : ExclusivityInv db)
    (hauth : findMember db c o ≠ none)
    (hteam : findTeamInOrg db t o ≠ none)
    (hroster : findRosterRow db o u ≠ none)
    (hheld : membershipsOf db u ≠ []) :
    ExclusivityInv (execOp db op) ∧
      addPlayerToTeam db c o t u n = (.error .conflict, db) ∧
      (membershipsOf db u).length = 1 := by
  refine ⟨exclusivity_execOp db op hinv, ?_, ?_⟩
  · obtain ⟨m, hm⟩ := Option.ne_none_iff_exists'.mp hauth
    obtain ⟨tr, ht⟩ := Option.ne_none_iff_exists'.mp hteam
    obtain ⟨pr, hp⟩ := Option.ne_none_iff_exists'.mp hroster
    obtain ⟨x, hx⟩ := List.exists_mem_of_ne_nil _ hheld
    obtain ⟨y, hy⟩ := find?_isSome_of_mem
      (List.mem_of_mem_filter hx) (List.of_mem_filter hx)
    unfold addPlayerToTeam findMembershipOfUser
    simp only [hm, ht, hp, hy]
  · have h1 := membershipsOf_length_le_one db u hinv
    have h2 : 0 < (membershipsOf db u).length := List.length_pos.mpr hheld
    omega

/-- State with one staff member, two teams of the organization, u1 on team
t1, and u1 on the roster, instantiating the exclusivity claim. -/
def c1Db : Db where
  users := []
  members := [⟨"m1".data, "staff".data, "org".data⟩]
  teams := [⟨"t1".data, "Red".data, "RED".data, "org".data, .active⟩,
            ⟨"t2".data, "Blue".data, "BLU".data, "org".data, .active⟩]
  teamMembers := [⟨"tm1".data, "t1".data, "u1".data, .member⟩]
  organizationPlayers := [⟨"p1".data, "org".data, "u1".data, .active⟩]
  leagues := []
  leagueTeams := []

/-- Witness for C1 at a concrete state: u1 already holds a membership, so
adding u1 to the second team conflicts while the invariant survives a
removal operation. -/
theorem C1_membership_exclusivity_witness :
    ExclusivityInv (execOp c1Db
      (.removePlayerFromTeamOp "staff".data "org".data "t1".data "u1".data)) ∧
      addPlayerToTeam c1Db "staff".data "org".data "t2".data "u1".data "new".data =
        (.error .conflict, c1Db) ∧
      (membershipsOf c1Db "u1".data).length = 1 :=
  C1_membership_exclusivity c1Db
    (.removePlayerFromTeamOp "staff".data "org".data "t1".data "u1".data)
    "staff".data "org".data "t2".data "u1".data "new".data
    (by decide) (by decide) (by decide) (by decide) (by decide)

/-- Claim C2: removing an admin membership succeeds, removes every row of that
user on the team, promotes a remaining membership of the team to admin when
one exists so the team ends with an admin, and when the admin was the only
member the team ends with zero rows and no promotion happens. -/
theorem C2_admin_succession (db : Db) (c o t u : Str)
    (hauth : findMember db c o ≠ none)
    (cur : TeamMemberRow)
    (hcur : db.teamMembers.find?
      (fun tm => decide (tm.teamId = t ∧ tm.userId = u)) = some cur)
    (hadmin : cur.role = .admin) :
    (removePlayerFromTeam db c o t u).1 = .ok () ∧
    (∀ x ∈ (removePlayerFromTeam db c o t u).2.teamMembers,
      ¬(x.teamId = t ∧ x.userId = u)) ∧
    ((∃ other ∈ db.teamMembers, other.teamId = t ∧ other.userId ≠ u) →
      ∃ x ∈ (removePlayerFromTeam db c o t u).2.teamMembers,
        x.teamId = t ∧ x.role = .admin) ∧
    ((¬ ∃ other ∈ db.teamMembers, other.teamId = t ∧ other.userId ≠ u) →
      (removePlayerFromTeam db c o t u).2 =
        { db with teamMembers := db.teamMembers.filter fun tm =>
            !decide (tm.teamId = t ∧ tm.userId = u) } ∧
      ∀ x ∈ (removePlayerFromTeam db c o t u).2.teamMembers, x.teamId ≠ t) := by
  obtain ⟨m, hm⟩ := Option.ne_none_iff_exists'.mp hauth
  cases hnext : db.teamMembers.find?
      (fun tm => decide (tm.teamId = t ∧ tm.userId ≠ u)) with
  | none =>
    have hres : removePlayerFromTeam db c o t u =
        (.ok (),
          { db with
            teamMembers := db.teamMembers.filter
              (fun tm => !decide (tm.teamId = t ∧ tm.userId = u)) }) := by
      unfold removePlayerFromTeam
      simp only [hm, hcur, hnext, if_pos hadmin]
    refine ⟨by rw [hres], ?_, ?_, ?_⟩
    · intro x hx
      rw [hres] at hx
      have := List.of_mem_filter hx
      simp only [Bool.not_eq_true', decide_eq_false_iff_not] at this
      exact this
    · rintro ⟨other, ho, hot, hou⟩
      have := List.find?_eq_none.mp hnext other ho
      simp only [decide_eq_true_eq, not_and] at this
      exact absurd hou (by simpa using this hot)
    · intro _
      refine ⟨by rw [hres], ?_⟩
      intro x hx hxt
      rw [hres] at hx
      have hp := List.of_mem_filter hx
      have hmem := List.mem_of_mem_filter hx
      simp only [Bool.not_eq_eq_eq_not, Bool.not_true, decide_eq_false_iff_not,
        not_and] at hp
      have hne := List.find?_eq_none.mp hnext x hmem
      simp only [decide_eq_true_eq, not_and] at hne
      exact hp hxt (by by_contra hxu; exact (hne hxt) hxu)
  | some nxt =>
    have hres : removePlayerFromTeam db c o t u =
        (.ok (),
          { db with
            teamMembers := (db.teamMembers.map
              (fun x => if x.id = nxt.id then { x with role := TeamRole.admin } else x)).filter
              (fun tm => !decide (tm.teamId = t ∧ tm.userId = u)) }) := by
      unfold removePlayerFromTeam
      simp only [hm, hcur, hnext, if_pos hadmin]
    have hnmem : nxt ∈ db.teamMembers := List.mem_of_find?_eq_some hnext
    have hnprop : nxt.teamId = t ∧ nxt.userId ≠ u := by
      have := List.find?_some hnext
      simpa using this
    refine ⟨by rw [hres], ?_, ?_, ?_⟩
    · intro x hx
      rw [hres] at hx
      have := List.of_mem_filter hx
      simp only [Bool.not_eq_true', decide_eq_false_iff_not] at this
      exact this
    · intro _
      refine ⟨{ nxt with role := TeamRole.admin }, ?_, hnprop.1, rfl⟩
      rw [hres]
      apply List.mem_filter.mpr
      constructor
      · apply List.mem_map.mpr
        exact ⟨nxt, hnmem, by rw [if_pos rfl]⟩
      · simp [hnprop.2]
    · rintro hno
      exact absurd ⟨nxt, hnmem, hnprop⟩ hno

/-- State with admin uA and member uB on team t1, instantiating the
admin-succession claim. -/
def c2Db : Db where
  users := []
  members := [⟨"m1".data, "staff".data, "org".data⟩]
  teams := [⟨"t1".data, "Red".data, "RED".data, "org".data, .active⟩]
  teamMembers := [⟨"tmA".data, "t1".data, "uA".data, .admin⟩,
                  ⟨"tmB".data, "t1".data, "uB".data, .member⟩]
  organizationPlayers := []
  leagues := []
  leagueTeams := []

/-- Witness for C2: removing admin uA from a team that also has member uB. -/
theorem C2_admin_succession_witness :
    (removePlayerFromTeam c2Db "staff".data "org".data "t1".data "uA".data).1 = .ok () ∧
    (∀ x ∈ (removePlayerFromTeam c2Db "staff".data "org".data "t1".data "uA".data).2.teamMembers,
      ¬(x.teamId = "t1".data ∧ x.userId = "uA".data)) ∧
    ((∃ other ∈ c2Db.teamMembers, other.teamId = "t1".data ∧ other.userId ≠ "uA".data) →
      ∃ x ∈ (removePlayerFromTeam c2Db "staff".data "org".data "t1".data "uA".data).2.teamMembers,
        x.teamId = "t1".data ∧ x.role = .admin) ∧
    ((¬ ∃ other ∈ c2Db.teamMembers, other.teamId = "t1".data ∧ other.userId ≠ "uA".data) →
      (removePlayerFromTeam c2Db "staff".data "org".data "t1".data "uA".data).2 =
        { c2Db with
          teamMembers := c2Db.teamMembers.filter
            (fun tm => !decide (tm.teamId = "t1".data ∧ tm.userId = "uA".data)) } ∧
      ∀ x ∈ (removePlayerFromTeam c2Db "staff".data "org".data "t1".data "uA".data).2.teamMembers,
        x.teamId ≠ "t1".data) :=
  C2_admin_succession c2Db "staff".data "org".data "t1".data "uA".data (by decide)
    ⟨"tmA".data, "t1".data, "uA".data, .admin⟩ (by decide) rfl

lemma specGroups_entry_key (s : Schedule) :
    ∀ (n : Nat) (ds : List Day), ds.length ≤ n →
      ∀ e ∈ specGroups s ds, ∃ d, d ∈ ds ∧ e.1 = scheduleKey (s d) := by
  intro n
  induction n with
  | zero =>
    intro ds hlen e he
    have hds : ds = [] := List.eq_nil_of_length_eq_zero (Nat.le_zero.mp hlen)
    subst hds
    rw [specGroups_nil] at he
    cases he
  | succ n ih =>
    intro ds hlen e he
    match ds with
    | [] =>
      rw [specGroups_nil] at he
      cases he
    | d :: rest =>
      rw [specGroups_cons] at he
      rcases List.mem_cons.mp he with he | he
      · exact ⟨d, List.mem_cons_self d rest, by rw [he]⟩
      · have hlen2 : (rest.filter
            (fun e => decide (scheduleKey (s e) ≠ scheduleKey (s d)))).length ≤ n := by
          have h1 := List.length_filter_le
            (fun e => decide (scheduleKey (s e) ≠ scheduleKey (s d))) rest
          simp only [List.length_cons] at hlen
          omega
        obtain ⟨d', hd', hk⟩ := ih _ hlen2 e he
        exact ⟨d', List.mem_cons_of_mem d (List.mem_of_mem_filter hd'), hk⟩

lemma specGroups_days_eq (s : Schedule) :
    ∀ (n : Nat) (ds : List Day), ds.length ≤ n →
      ∀ e ∈ specGroups s ds,
        e.2.days = ds.filter (fun d => decide (scheduleKey (s d) = e.1)) := by
  intro n
  induction n with
  | zero =>
    intro ds hlen e he
    have hds : ds = [] := List.eq_nil_of_length_eq_zero (Nat.le_zero.mp hlen)
    subst hds
    rw [specGroups_nil] at he
    cases he
  | succ n ih =>
    intro ds hlen e he
    match ds with
    | [] =>
      rw [specGroups_nil] at he
      cases he
    | d :: rest =>
      have hlen2 : (rest.filter
          (fun e => decide (scheduleKey (s e) ≠ scheduleKey (s d)))).length ≤ n := by
        have h1 := List.length_filter_le
          (fun e => decide (scheduleKey (s e) ≠ scheduleKey (s d))) rest
        simp only [List.length_cons] at hlen
        omega
      rw [specGroups_cons] at he
      rcases List.mem_cons.mp he with he | he
      · subst he
        simp only [List.filter_cons, decide_eq_true_eq]
        rw [if_pos (by simp)]
      · obtain ⟨d', hd', hkey⟩ := specGroups_entry_key s n _ hlen2 e he
        have hne : e.1 ≠ scheduleKey (s d) := by
          have := List.of_mem_filter hd'
          simp only [decide_eq_true_eq] at this
          rw [hkey]
          exact this
        rw [ih _ hlen2 e he]
        rw [List.filter_filter]
        simp only [List.filter_cons]
        rw [if_neg (by simp; intro hkd; exact absurd hkd.symm hne)]
        apply List.filter_congr
        intro x _
        by_cases hx : scheduleKey (s x) = e.1
        · have hxk : scheduleKey (s x) ≠ scheduleKey (s d) := by
            rw [hx]; exact hne
          rw [decide_eq_true hx, decide_eq_true hxk]
          rfl
        · rw [decide_eq_false hx, Bool.false_and]

/-- Claim C3, amended: the grouping pass merges exactly the days carrying an
identical time-range key, whether or not consecutive, so a group's day list
is in general not a contiguous run: the output renders the characterized
groups, each group's day list is exactly the week days whose key equals the
group's key taken in week order, and the groups are ordered by the index of
the first day mapping to each group. -/
theorem C3_grouping_amended (s : Schedule) :
    getFacilityScheduleGroups s = (specGroups s dayKeys).map renderGroup ∧
    (∀ e ∈ specGroups s dayKeys,
      e.2.days = dayKeys.filter (fun d => decide (scheduleKey (s d) = e.1))) ∧
    ((specGroups s dayKeys).map (fun e => firstDayIndex e.2.days)).Pairwise (· < ·) := by
  refine ⟨getFacilityScheduleGroups_eq_spec s, ?_, ?_⟩
  · exact specGroups_days_eq s 7 dayKeys (by simp [dayKeys])
  · exact List.pairwise_map.mpr
      (specGroups_sorted s 7 dayKeys (by simp [dayKeys]) (by decide))

/-- Claim C3 counterexample: with monday and wednesday open 09:00-17:00 and the
rest closed, the produced group holding the Mon chip also holds the Wed
chip, and no contiguous run of week days carries that label list, refuting
the consecutive-only merge reading of the grouping claim. -/
theorem C3_grouping_counterexample :
    ∃ g ∈ getFacilityScheduleGroups mondayWednesdaySchedule,
      ∀ i n : Nat, g.dayLabels ≠ ((dayKeys.drop i).take n).map getLeagueDayLabel := by
  refine ⟨⟨["Mon".data, "Wed".data],
    ("9:00 AM".data ++ " – ".data ++ "5:00 PM".data)⟩, by decide, ?_⟩
  intro i n h
  have hlen := congrArg List.length h
  simp only [List.length_map, List.length_take, List.length_drop,
    List.length_cons, List.length_nil] at hlen
  simp only [dayKeys, List.length_cons, List.length_nil] at hlen
  have hi : i ≤ 5 := by omega
  have htake : (dayKeys.drop i).take n = (dayKeys.drop i).take 2 := by
    apply List.take_eq_take.mpr
    simp only [List.length_drop]
    simp only [dayKeys, List.length_cons, List.length_nil]
    omega
  rw [htake] at h
  interval_cases i <;> revert h <;> decide

/-- Claim C4: for a schedule whose open days carry valid HH:mm time strings, the
round trip through the seven-key form state, blank fields meaning closed on
the way back, reproduces the schedule exactly, so grouping the round-tripped
schedule produces the same groups as grouping the original. -/
theorem C4_roundtrip_grouping (s : Schedule)
    (hvalid : ∀ d p, s d = some p → hhmmValid p.1 = true ∧ hhmmValid p.2 = true) :
    roundTripSchedule s = s ∧
    getFacilityScheduleGroups (roundTripSchedule s) = getFacilityScheduleGroups s := by
  have h := roundTripSchedule_eq s hvalid
  exact ⟨h, by rw [h]⟩

/-- Witness for C4 at a concrete schedule with three open days, one of them
with a single-digit hour. -/
theorem C4_roundtrip_grouping_witness :
    roundTripSchedule c4WitnessSchedule = c4WitnessSchedule ∧
    getFacilityScheduleGroups (roundTripSchedule c4WitnessSchedule) =
      getFacilityScheduleGroups c4WitnessSchedule := by
  apply C4_roundtrip_grouping c4WitnessSchedule
  intro d p hp
  cases d <;>
    simp only [c4WitnessSchedule, Option.some.injEq, reduceCtorEq] at hp <;>
    cases hp <;> exact ⟨by decide, by decide⟩

/-- Claim C5: addTeamToLeague raises NotFound when the league or the team is not
owned by the organization, Conflict when the junction pair already exists,
and otherwise inserts exactly one junction row; calling it again for the
same pair leaves exactly one row for the pair and returns Conflict. -/
theorem C5_addTeamToLeague (db : Db) (c o l t id1 id2 : Str)
    (hauth : findMember db c o ≠ none) :
    (findLeagueInOrg db l o = none →
      addTeamToLeague db c o l t id1 = (.error .notFound, db)) ∧
    (findLeagueInOrg db l o ≠ none → findTeamInOrg db t o = none →
      addTeamToLeague db c o l t id1 = (.error .notFound, db)) ∧
    (findLeagueInOrg db l o ≠ none → findTeamInOrg db t o ≠ none →
      pairRows db l t ≠ [] →
      addTeamToLeague db c o l t id1 = (.error .conflict, db)) ∧
    (findLeagueInOrg db l o ≠ none → findTeamInOrg db t o ≠ none →
      pairRows db l t = [] → (∀ x ∈ db.leagueTeams, x.id ≠ id1) →
      addTeamToLeague db c o l t id1 =
        (.ok ⟨id1, l, t⟩,
          { db with leagueTeams := db.leagueTeams ++ [⟨id1, l, t⟩] }) ∧
      pairRows { db with leagueTeams := db.leagueTeams ++ [⟨id1, l, t⟩] } l t =
        [⟨id1, l, t⟩] ∧
      addTeamToLeague { db with leagueTeams := db.leagueTeams ++ [⟨id1, l, t⟩] }
          c o l t id2 =
        (.error .conflict,
          { db with leagueTeams := db.leagueTeams ++ [⟨id1, l, t⟩] })) := by
  obtain ⟨m, hm⟩ := Option.ne_none_iff_exists'.mp hauth
  refine ⟨?_, ?_, ?_, ?_⟩
  · intro hl
    unfold addTeamToLeague
    simp only [hm, hl]
  · intro hl ht
    obtain ⟨lr, hlr⟩ := Option.ne_none_iff_exists'.mp hl
    unfold addTeamToLeague
    simp only [hm, hlr, ht]
  · intro hl ht hpair
    obtain ⟨lr, hlr⟩ := Option.ne_none_iff_exists'.mp hl
    obtain ⟨tr, htr⟩ := Option.ne_none_iff_exists'.mp ht
    obtain ⟨x, hx⟩ := List.exists_mem_of_ne_nil _ hpair
    obtain ⟨y, hy⟩ := find?_isSome_of_mem
      (List.mem_of_mem_filter hx) (List.of_mem_filter hx)
    unfold addTeamToLeague findLeagueTeamPair
    simp only [hm, hlr, htr, hy]
  · intro hl ht hpair hid
    obtain ⟨lr, hlr⟩ := Option.ne_none_iff_exists'.mp hl
    obtain ⟨tr, htr⟩ := Option.ne_none_iff_exists'.mp ht
    have hall := List.filter_eq_nil_iff.mp hpair
    have hnone : findLeagueTeamPair db l t = none := by
      unfold findLeagueTeamPair
      exact List.find?_eq_none.mpr hall
    have hok : leagueTeamInsertOk db ⟨id1, l, t⟩ = true := by
      unfold leagueTeamInsertOk
      rw [List.all_eq_true]
      intro x hx
      have h2 := hall x hx
      simp only [decide_eq_true_eq] at h2 ⊢
      exact ⟨hid x hx, h2⟩
    have hfirst : addTeamToLeague db c o l t id1 =
        (.ok ⟨id1, l, t⟩,
          { db with leagueTeams := db.leagueTeams ++ [⟨id1, l, t⟩] }) := by
      unfold addTeamToLeague insertLeagueTeam
      simp only [hm, hlr, htr, hnone]
      rw [if_pos hok]
    refine ⟨hfirst, ?_, ?_⟩
    · unfold pairRows
      show List.filter _ (db.leagueTeams ++ [⟨id1, l, t⟩]) = _
      rw [List.filter_append]
      rw [show List.filter
          (fun x => decide (x.leagueId = l ∧ x.teamId = t)) db.leagueTeams = []
        from hpair]
      simp
    · have hm' : findMember { db with
          leagueTeams := db.leagueTeams ++ [⟨id1, l, t⟩] } c o = some m := hm
      have hlr' : findLeagueInOrg { db with
          leagueTeams := db.leagueTeams ++ [⟨id1, l, t⟩] } l o = some lr := hlr
      have htr' : findTeamInOrg { db with
          leagueTeams := db.leagueTeams ++ [⟨id1, l, t⟩] } t o = some tr := htr
      have hpair' : findLeagueTeamPair { db with
          leagueTeams := db.leagueTeams ++ [⟨id1, l, t⟩] } l t =
          some ⟨id1, l, t⟩ := by
        unfold findLeagueTeamPair
        show List.find? _ (db.leagueTeams ++ [⟨id1, l, t⟩]) = _
        rw [List.find?_append]
        rw [show List.find?
            (fun x => decide (x.leagueId = l ∧ x.teamId = t)) db.leagueTeams = none
          from hnone]
        simp
      unfold addTeamToLeague
      simp only [hm', hlr', htr', hpair']

/-- State with one league and one team of the organization and no junction
rows, instantiating the junction-uniqueness claim. -/
def c5Db : Db where
  users := []
  members := [⟨"m1".data, "staff".data, "org".data⟩]
  teams := [⟨"t1".data, "Red".data, "RED".data, "org".data, .active⟩]
  teamMembers := []
  organizationPlayers := []
  leagues := [⟨"l1".data, "org".data, "Spring".data, "spring".data⟩]
  leagueTeams := []

/-- Witness for C5: adding team t1 to league l1 twice, the first call
inserting one junction row and the second returning Conflict. -/
theorem C5_addTeamToLeague_witness :
    addTeamToLeague c5Db "staff".data "org".data "l1".data "t1".data "j1".data =
      (.ok ⟨"j1".data, "l1".data, "t1".data⟩,
        { c5Db with leagueTeams :=
          c5Db.leagueTeams ++ [⟨"j1".data, "l1".data, "t1".data⟩] }) ∧
    pairRows { c5Db with leagueTeams :=
        c5Db.leagueTeams ++ [⟨"j1".data, "l1".data, "t1".data⟩] }
      "l1".data "t1".data = [⟨"j1".data, "l1".data, "t1".data⟩] ∧
    addTeamToLeague { c5Db with leagueTeams :=
        c5Db.leagueTeams ++ [⟨"j1".data, "l1".data, "t1".data⟩] }
      "staff".data "org".data "l1".data "t1".data "j2".data =
      (.error .conflict,
        { c5Db with leagueTeams :=
          c5Db.leagueTeams ++ [⟨"j1".data, "l1".data, "t1".data⟩] }) :=
  (C5_addTeamToLeague c5Db "staff".data "org".data "l1".data "t1".data
    "j1".data "j2".data (by decide)).2.2.2
    (by decide) (by decide) (by decide) (by decide)

/-- Claim C6: slug allocation returns the first candidate of the probe sequence
base, base-1, base-2 and so on that is free in the scope, with every
earlier candidate taken; the derivation lowercases, collapses
non-alphanumeric runs to single hyphens, strips edge hyphens, and falls
back to the type word when empty; in particular with riverside-park taken
and riverside-park-1 free, the name Riverside Park!! allocates
riverside-park-1. -/
theorem C6_slug_allocation (existing : List Str) (name : Str) :
    (allocateSlug existing (facilityBaseSlug none name) ∉ existing ∧
      ∃ k, allocateSlug existing (facilityBaseSlug none name) =
          slugCandidate (facilityBaseSlug none name) k ∧
        ∀ j < k, slugCandidate (facilityBaseSlug none name) j ∈ existing) ∧
    (slugFromName name ≠ [] →
      leagueBaseSlug name = slugFromName name ∧
      facilityBaseSlug none name = slugFromName name) ∧
    (slugFromName name = [] →
      leagueBaseSlug name = "league".data ∧
      facilityBaseSlug none name = "facility".data) ∧
    ("riverside-park".data ∈ existing → "riverside-park-1".data ∉ existing →
      allocateSlug existing (facilityBaseSlug none "Riverside Park!!".data) =
        "riverside-park-1".data) := by
  refine ⟨⟨?_, ?_⟩, ?_, ?_, ?_⟩
  · exact Nat.find_spec (exists_free_slug existing (facilityBaseSlug none name))
  · refine ⟨Nat.find (exists_free_slug existing (facilityBaseSlug none name)),
      rfl, ?_⟩
    intro j hj
    have := Nat.find_min (exists_free_slug existing (facilityBaseSlug none name)) hj
    exact not_not.mp this
  · intro h
    simp [leagueBaseSlug, facilityBaseSlug, h]
  · intro h
    simp [leagueBaseSlug, facilityBaseSlug, h]
  · intro h1 h2
    have hbase : facilityBaseSlug none "Riverside Park!!".data =
        "riverside-park".data := by decide
    rw [hbase]
    unfold allocateSlug
    have hfind : Nat.find (exists_free_slug existing "riverside-park".data) = 1 := by
      rw [Nat.find_eq_iff]
      refine ⟨?_, ?_⟩
      · show slugCandidate "riverside-park".data 1 ∉ existing
        have hc : slugCandidate "riverside-park".data 1 =
            "riverside-park-1".data := by decide
        rw [hc]
        exact h2
      · intro j hj
        interval_cases j
        rw [not_not]
        exact h1
    rw [hfind]
    decide

/-- Witness for C6: the collision example of the claim. -/
theorem C6_slug_allocation_witness :
    allocateSlug ["riverside-park".data]
      (facilityBaseSlug none "Riverside Park!!".data) = "riverside-park-1".data :=
  (C6_slug_allocation ["riverside-park".data] "Riverside Park!!".data).2.2.2
    (by decide) (by decide)

lemma orgPlayers_deleteOrgMemberships (db : Db) (o u : Str) :
    (deleteOrgMemberships db o u).organizationPlayers = db.organizationPlayers := by
  unfold deleteOrgMemberships
  split <;> rfl

lemma users_deleteOrgMemberships (db : Db) (o u : Str) :
    (deleteOrgMemberships db o u).users = db.users := by
  unfold deleteOrgMemberships
  split <;> rfl

lemma members_deleteOrgMemberships (db : Db) (o u : Str) :
    (deleteOrgMemberships db o u).members = db.members := by
  unfold deleteOrgMemberships
  split <;> rfl

lemma teams_deleteOrgMemberships (db : Db) (o u : Str) :
    (deleteOrgMemberships db o u).teams = db.teams := by
  unfold deleteOrgMemberships
  split <;> rfl

lemma leagues_deleteOrgMemberships (db : Db) (o u : Str) :
    (deleteOrgMemberships db o u).leagues = db.leagues := by
  unfold deleteOrgMemberships
  split <;> rfl

lemma leagueTeams_deleteOrgMemberships (db : Db) (o u : Str) :
    (deleteOrgMemberships db o u).leagueTeams = db.leagueTeams := by
  unfold deleteOrgMemberships
  split <;> rfl

lemma teamMembers_deleteOrgMemberships (db : Db) (o u : Str) :
    (deleteOrgMemberships db o u).teamMembers =
      db.teamMembers.filter
        (fun tm => !decide (tm.userId = u ∧ tm.teamId ∈ orgTeamIds db o)) := by
  unfold deleteOrgMemberships
  split
  · rfl
  · rename_i hempty
    rw [not_ne_iff] at hempty
    symm
    apply List.filter_eq_self.mpr
    intro tm _
    rw [hempty]
    simp

/-- Claim C7: removePlayer deletes the roster row and exactly the memberships the
user holds on the organization's teams, leaving untouched every other
table, every membership on teams outside the organization or of other
users, and every other roster row. -/
theorem C7_roster_removal_frame (db : Db) (c o pid : Str)
    (hauth : findMember db c o ≠ none)
    (op : OrganizationPlayerRow)
    (hop : findRosterById db pid o = some op) :
    (removePlayer db c o pid).1 = .ok () ∧
    (removePlayer db c o pid).2.organizationPlayers =
      db.organizationPlayers.filter (fun p => !decide (p.id = pid)) ∧
    (removePlayer db c o pid).2.teamMembers =
      db.teamMembers.filter
        (fun tm => !decide (tm.userId = op.userId ∧ tm.teamId ∈ orgTeamIds db o)) ∧
    (removePlayer db c o pid).2.users = db.users ∧
    (removePlayer db c o pid).2.members = db.members ∧
    (removePlayer db c o pid).2.teams = db.teams ∧
    (removePlayer db c o pid).2.leagues = db.leagues ∧
    (removePlayer db c o pid).2.leagueTeams = db.leagueTeams ∧
    (∀ tm ∈ db.teamMembers, ¬(tm.userId = op.userId ∧ tm.teamId ∈ orgTeamIds db o) →
      tm ∈ (removePlayer db c o pid).2.teamMembers) ∧
    (∀ p ∈ db.organizationPlayers, p.id ≠ pid →
      p ∈ (removePlayer db c o pid).2.organizationPlayers) := by
  obtain ⟨m, hm⟩ := Option.ne_none_iff_exists'.mp hauth
  have hmem_op : op ∈ db.organizationPlayers := List.mem_of_find?_eq_some hop
  have hprop : op.id = pid ∧ op.organizationId = o := by
    have := List.find?_some hop
    simpa using this
  have hne : db.organizationPlayers.filter (fun p => decide (p.id = pid)) ≠ [] := by
    apply List.ne_nil_of_mem (a := op)
    apply List.mem_filter.mpr
    exact ⟨hmem_op, by simp [hprop.1]⟩
  have hres : removePlayer db c o pid =
      (.ok (), { deleteOrgMemberships db o op.userId with
        organizationPlayers :=
          db.organizationPlayers.filter (fun p => !decide (p.id = pid)) }) := by
    unfold removePlayer removePlayerWith
    simp only [hm, hop]
    dsimp only [id]
    rw [orgPlayers_deleteOrgMemberships]
    rw [if_neg hne]
  refine ⟨by rw [hres], by rw [hres], ?_, ?_, ?_, ?_, ?_, ?_, ?_, ?_⟩
  · rw [hres]
    exact teamMembers_deleteOrgMemberships db o op.userId
  · rw [hres]
    exact users_deleteOrgMemberships db o op.userId
  · rw [hres]
    exact members_deleteOrgMemberships db o op.userId
  · rw [hres]
    exact teams_deleteOrgMemberships db o op.userId
  · rw [hres]
    exact leagues_deleteOrgMemberships db o op.userId
  · rw [hres]
    exact leagueTeams_deleteOrgMemberships db o op.userId
  · intro tm htm hcond
    rw [hres]
    show tm ∈ (deleteOrgMemberships db o op.userId).teamMembers
    rw [teamMembers_deleteOrgMemberships]
    apply List.mem_filter.mpr
    refine ⟨htm, ?_⟩
    simp only [Bool.not_eq_true', decide_eq_false_iff_not]
    exact hcond
  · intro p hp hpid
    rw [hres]
    show p ∈ List.filter _ db.organizationPlayers
    apply List.mem_filter.mpr
    exact ⟨hp, by simpa using hpid⟩

/-- State with user u1 on team t1 of the organization and also on team t9
of another organization, and a second rostered user u2 with no memberships
at all, instantiating the roster-removal frame claim. -/
def c7Db : Db where
  users := []
  members := [⟨"m1".data, "staff".data, "org".data⟩]
  teams := [⟨"t1".data, "Red".data, "RED".data, "org".data, .active⟩,
            ⟨"t9".data, "Away".data, "AWY".data, "org2".data, .active⟩]
  teamMembers := [⟨"tmA".data, "t1".data, "u1".data, .member⟩,
                  ⟨"tmB".data, "t9".data, "u1".data, .member⟩,
                  ⟨"tmC".data, "t1".data, "u2".data, .member⟩]
  organizationPlayers := [⟨"p1".data, "org".data, "u1".data, .active⟩,
                          ⟨"p2".data, "org".data, "u2".data, .active⟩]
  leagues := []
  leagueTeams := []

/-- Witness for C7: removing u1 from the roster deletes the membership on
the organization's team and keeps the membership on the foreign team. -/
theorem C7_roster_removal_frame_witness :
    (removePlayer c7Db "staff".data "org".data "p1".data).1 = .ok () ∧
    (removePlayer c7Db "staff".data "org".data "p1".data).2.teamMembers =
      c7Db.teamMembers.filter (fun tm =>
        !decide (tm.userId = "u1".data ∧ tm.teamId ∈ orgTeamIds c7Db "org".data)) ∧
    (removePlayer c7Db "staff".data "org".data "p1".data).2.organizationPlayers =
      c7Db.organizationPlayers.filter (fun p => !decide (p.id = "p1".data)) :=
  ⟨(C7_roster_removal_frame c7Db "staff".data "org".data "p1".data (by decide)
      ⟨"p1".data, "org".data, "u1".data, .active⟩ (by decide)).1,
   (C7_roster_removal_frame c7Db "staff".data "org".data "p1".data (by decide)
      ⟨"p1".data, "org".data, "u1".data, .active⟩ (by decide)).2.2.1,
   (C7_roster_removal_frame c7Db "staff".data "org".data "p1".data (by decide)
      ⟨"p1".data, "org".data, "u1".data, .active⟩ (by decide)).2.1⟩

lemma mem_listPlayersJoinRows (db : Db) (p : OrganizationPlayerRow) (u : UserRow)
    (tm? : Option TeamMemberRow) (team? : Option TeamRow)
    (hp : p ∈ db.organizationPlayers)
    (hu : u ∈ db.users) (huid : u.id = p.userId)
    (htm : tm? ∈ leftJoinRows
      (db.teamMembers.filter fun tm => decide (tm.userId = p.userId)))
    (hteam : team? ∈ (match tm? with
      | none => ([none] : List (Option TeamRow))
      | some tm => leftJoinRows (db.teams.filter fun t =>
          decide (t.id = tm.teamId ∧ t.organizationId = p.organizationId)))) :
    (p, u, tm?, team?) ∈ listPlayersJoinRows db := by
  unfold listPlayersJoinRows
  apply List.mem_flatMap.mpr
  refine ⟨p, hp, ?_⟩
  apply List.mem_flatMap.mpr
  refine ⟨u, List.mem_filter.mpr ⟨hu, by simp [huid]⟩, ?_⟩
  apply List.mem_flatMap.mpr
  refine ⟨tm?, htm, ?_⟩
  apply List.mem_map.mpr
  exact ⟨team?, hteam, rfl⟩

/-- Claim C8: a roster row whose user holds no membership on any of the
organization's teams appears in the unfiltered roster listing with teamId,
teamName and teamSlug all absent. -/
theorem C8_free_agent_listing (db : Db) (c o : Str)
    (hauth : findMember db c o ≠ none)
    (e : OrganizationPlayerRow) (he : e ∈ db.organizationPlayers)
    (horg : e.organizationId = o)
    (u : UserRow) (hu : u ∈ db.users) (huid : u.id = e.userId)
    (hfree : ∀ tm ∈ db.teamMembers, tm.userId = e.userId →
      tm.teamId ∉ orgTeamIds db o) :
    (listPlayers db c o none none).2 = db ∧
    ∃ rows, (listPlayers db c o none none).1 = .ok rows ∧
      ∃ r ∈ rows, r.id = e.id ∧ r.userId = e.userId ∧
        r.teamId = none ∧ r.teamName = none ∧ r.teamSlug = none := by
  obtain ⟨m, hm⟩ := Option.ne_none_iff_exists'.mp hauth
  have hjoin : ∃ tm?, ((e, u, tm?, (none : Option TeamRow)) ∈
      listPlayersJoinRows db) := by
    cases htms : db.teamMembers.filter
        (fun tm => decide (tm.userId = e.userId)) with
    | nil =>
      refine ⟨none, mem_listPlayersJoinRows db e u none none he hu huid ?_ ?_⟩
      · rw [htms]
        exact List.mem_singleton_self _
      · exact List.mem_singleton_self _
    | cons x xs =>
      have hxmem : x ∈ db.teamMembers.filter
          (fun tm => decide (tm.userId = e.userId)) := by
        rw [htms]
        exact List.mem_cons_self x xs
      have hxuid : x.userId = e.userId := by
        have := List.of_mem_filter hxmem
        simpa using this
      have hxdb : x ∈ db.teamMembers := List.mem_of_mem_filter hxmem
      refine ⟨some x, mem_listPlayersJoinRows db e u (some x) none he hu huid ?_ ?_⟩
      · rw [htms]
        unfold leftJoinRows
        exact List.mem_map_of_mem some (List.mem_cons_self x xs)
      · have hteamfilter : db.teams.filter (fun t =>
            decide (t.id = x.teamId ∧ t.organizationId = e.organizationId)) = [] := by
          apply List.filter_eq_nil_iff.mpr
          intro t htdb
          simp only [decide_eq_true_eq, not_and]
          intro htid htorg
          exact absurd (show x.teamId ∈ orgTeamIds db o from by
              unfold orgTeamIds
              apply List.mem_map.mpr
              refine ⟨t, List.mem_filter.mpr ⟨htdb, by simp [htorg, horg.symm]⟩, htid⟩)
            (hfree x hxdb hxuid)
        show (none : Option TeamRow) ∈ leftJoinRows (db.teams.filter _)
        rw [hteamfilter]
        exact List.mem_singleton_self _
  obtain ⟨tm?, hjr⟩ := hjoin
  unfold listPlayers
  simp only [hm]
  refine ⟨trivial, ?_⟩
  refine ⟨_, rfl, ?_⟩
  refine ⟨PlayerListRow.mk e.id none e.userId e.status none none u.name u.email,
    ?_, rfl, rfl, rfl, rfl, rfl⟩
  apply List.mem_map.mpr
  refine ⟨(e, u, tm?, none), ?_, rfl⟩
  apply List.mem_filter.mpr
  refine ⟨hjr, ?_⟩
  simp [horg]

/-- State with free agent u2 on the roster, user u1 on the only team, and a
user row for u2, instantiating the free-agent listing claim. -/
def c8Db : Db where
  users := [⟨"u2".data, "Bob".data, "bob@example.com".data⟩]
  members := [⟨"m1".data, "staff".data, "org".data⟩]
  teams := [⟨"t1".data, "Red".data, "RED".data, "org".data, .active⟩]
  teamMembers := [⟨"tmA".data, "t1".data, "u1".data, .member⟩]
  organizationPlayers := [⟨"p2".data, "org".data, "u2".data, .active⟩]
  leagues := []
  leagueTeams := []

/-- Witness for C8: the free agent u2 appears in the listing with no team
fields. -/
theorem C8_free_agent_listing_witness :
    (listPlayers c8Db "staff".data "org".data none none).2 = c8Db ∧
    ∃ rows, (listPlayers c8Db "staff".data "org".data none none).1 = .ok rows ∧
      ∃ r ∈ rows, r.id = "p2".data ∧ r.userId = "u2".data ∧
        r.teamId = none ∧ r.teamName = none ∧ r.teamSlug = none :=
  C8_free_agent_listing c8Db "staff".data "org".data (by decide)
    ⟨"p2".data, "org".data, "u2".data, .active⟩ (by decide) rfl
    ⟨"u2".data, "Bob".data, "bob@example.com".data⟩ (by decide) rfl
    (by decide)

/-- Claim C9: the declared team_member table carries single-column uniqueness
constraints on userId and on teamId besides the composite pair unique, and
declares no role column; under the declared single-column uniques a state
holds at most one membership row per user and at most one per team. -/
theorem C9_schema_single_column_uniques (rows : List TeamMemberDeclRow)
    (h : teamMemberDeclConstraintsHold rows) :
    ["userId".data] ∈ teamMemberUniqueColumnSets ∧
    ["teamId".data] ∈ teamMemberUniqueColumnSets ∧
    ["teamId".data, "userId".data] ∈ teamMemberUniqueColumnSets ∧
    "role".data ∉ teamMemberColumnNames ∧
    (∀ a ∈ rows, ∀ b ∈ rows, a.userId = b.userId → a = b) ∧
    (∀ a ∈ rows, ∀ b ∈ rows, a.teamId = b.teamId → a = b) := by
  refine ⟨by decide, by decide, by decide, by decide, ?_, ?_⟩
  · intro a ha b hb hab
    by_contra hne
    exact List.Pairwise.forall (fun x y hxy => (Ne.symm hxy : _)) h.2 ha hb hne hab
  · intro a ha b hb hab
    by_contra hne
    exact List.Pairwise.forall (fun x y hxy => (Ne.symm hxy : _)) h.1 ha hb hne hab

/-- Witness for C9 at a two-row state satisfying the declared uniques. -/
theorem C9_schema_single_column_uniques_witness :
    ["userId".data] ∈ teamMemberUniqueColumnSets ∧
    ["teamId".data] ∈ teamMemberUniqueColumnSets ∧
    ["teamId".data, "userId".data] ∈ teamMemberUniqueColumnSets ∧
    "role".data ∉ teamMemberColumnNames ∧
    (∀ a ∈ [TeamMemberDeclRow.mk "a".data "t1".data "u1".data,
            TeamMemberDeclRow.mk "b".data "t2".data "u2".data],
      ∀ b ∈ [TeamMemberDeclRow.mk "a".data "t1".data "u1".data,
             TeamMemberDeclRow.mk "b".data "t2".data "u2".data],
        a.userId = b.userId → a = b) ∧
    (∀ a ∈ [TeamMemberDeclRow.mk "a".data "t1".data "u1".data,
            TeamMemberDeclRow.mk "b".data "t2".data "u2".data],
      ∀ b ∈ [TeamMemberDeclRow.mk "a".data "t1".data "u1".data,
             TeamMemberDeclRow.mk "b".data "t2".data "u2".data],
        a.teamId = b.teamId → a = b) :=
  C9_schema_single_column_uniques
    [TeamMemberDeclRow.mk "a".data "t1".data "u1".data,
     TeamMemberDeclRow.mk "b".data "t2".data "u2".data] (by decide)

/-- Claim C10: at the await point between the membership deletions and the
roster-entry deletion, an environment step that has already removed the
roster row makes the final deletion affect zero rows: the handler fails
with Internal, the final state is exactly the environment image of the
membership-deleted state with no rollback, and every membership of the user
on the organization's teams is already gone from that state. -/
theorem C10_non_atomic_roster_removal (env : Db → Db) (db : Db) (c o pid : Str)
    (hauth : findMember db c o ≠ none)
    (op : OrganizationPlayerRow) (hop : findRosterById db pid o = some op)
    (hgone : ∀ p ∈ (env (deleteOrgMemberships db o op.userId)).organizationPlayers,
      p.id ≠ pid) :
    removePlayerWith env db c o pid =
      (.error .internal, env (deleteOrgMemberships db o op.userId)) ∧
    (deleteOrgMemberships db o op.userId).teamMembers =
      db.teamMembers.filter
        (fun tm => !decide (tm.userId = op.userId ∧ tm.teamId ∈ orgTeamIds db o)) ∧
    (∀ tm ∈ db.teamMembers, tm.userId = op.userId → tm.teamId ∈ orgTeamIds db o →
      tm ∉ (deleteOrgMemberships db o op.userId).teamMembers) := by
  obtain ⟨m, hm⟩ := Option.ne_none_iff_exists'.mp hauth
  have hfilters : (env (deleteOrgMemberships db o op.userId)).organizationPlayers.filter
      (fun p => decide (p.id = pid)) = [] := by
    apply List.filter_eq_nil_iff.mpr
    intro p hp
    simpa using hgone p hp
  have hselffilter : (env (deleteOrgMemberships db o op.userId)).organizationPlayers.filter
      (fun p => !decide (p.id = pid)) =
      (env (deleteOrgMemberships db o op.userId)).organizationPlayers := by
    apply List.filter_eq_self.mpr
    intro p hp
    simpa using hgone p hp
  refine ⟨?_, teamMembers_deleteOrgMemberships db o op.userId, ?_⟩
  · unfold removePlayerWith
    simp only [hm, hop]
    rw [if_pos hfilters]
    rw [Prod.mk.injEq]
    refine ⟨rfl, ?_⟩
    rw [hselffilter]
  · intro tm htm h1 h2 hmem
    rw [teamMembers_deleteOrgMemberships] at hmem
    have := List.of_mem_filter hmem
    simp only [Bool.not_eq_true', decide_eq_false_iff_not, not_and] at this
    exact (this h1) h2

/-- State with user u1 on team t1 of the organization and on the roster,
instantiating the non-atomic removal claim. -/
def c10Db : Db where
  users := []
  members := [⟨"m1".data, "staff".data, "org".data⟩]
  teams := [⟨"t1".data, "Red".data, "RED".data, "org".data, .active⟩]
  teamMembers := [⟨"tmA".data, "t1".data, "u1".data, .member⟩]
  organizationPlayers := [⟨"p1".data, "org".data, "u1".data, .active⟩]
  leagues := []
  leagueTeams := []

/-- Environment step standing for a concurrent removal of the roster row
between the two deletions. -/
def c10Env (d : Db) : Db :=
  { d with organizationPlayers :=
      d.organizationPlayers.filter fun p => !decide (p.id = "p1".data) }

/-- Witness for C10: with the roster row deleted concurrently at the await
point, the handler reports Internal while the membership deletion stands. -/
theorem C10_non_atomic_roster_removal_witness :
    removePlayerWith c10Env c10Db "staff".data "org".data "p1".data =
      (.error .internal, c10Env (deleteOrgMemberships c10Db "org".data "u1".data)) ∧
    (deleteOrgMemberships c10Db "org".data "u1".data).teamMembers =
      c10Db.teamMembers.filter
        (fun tm => !decide (tm.userId = "u1".data ∧
          tm.teamId ∈ orgTeamIds c10Db "org".data)) ∧
    (∀ tm ∈ c10Db.teamMembers, tm.userId = "u1".data →
      tm.teamId ∈ orgTeamIds c10Db "org".data →
      tm ∉ (deleteOrgMemberships c10Db "org".data "u1".data).teamMembers) :=
  C10_non_atomic_roster_removal c10Env c10Db "staff".data "org".data "p1".data
    (by decide) ⟨"p1".data, "org".data, "u1".data, .active⟩ (by decide) (by decide)

end Organizer
